import Mathlib

/-!
Verification development for the conversational control layer of the
BTP_Voice_Assistant repository: a shallow embedding of
`modules/intent_classifier.py` (hybrid intent classification) and
`modules/session_manager.py` (Redis-backed dialogue session state), with
theorems settling the specification claims about them.

Conventions of the embedding:
* Python `str` values are embedded as Lean `String` / `List Char`
  (classifier text processing works on `List Char`).
* Python `int` is embedded as `Int`; Python `float` confidences and
  timestamps are embedded as `ℚ` (the source only ever adds, subtracts,
  compares and truncates them).
* `datetime.utcnow()` is embedded as an explicit `now : ℚ` parameter;
  all calls inside one operation observe the same instant.
* The Upstash Redis backing store is embedded as an association list
  from key to session record inside `SMState`; `redis_client is None`
  (degraded mode) is the flag `redis_active = false`.  The field
  `redis_calls` is ghost instrumentation counting every attempted
  backing-store command (get/setex/delete), used to state that degraded
  mode attempts none.
* The external Gemini collaborator of `_llm_classify` is a parameter:
  `apiResponse : Option (List Char)` is the raw response text (`none`
  models the API call raising).  The Python-stdlib `json.loads` plus
  field extraction (`result.get(...)`, `float(...)`) is abstracted as a
  parameter `parse : List Char → Option LlmAnswer`, `none` covering the
  exception paths of parsing; the repository-owned processing around it
  (`.strip()`, markdown fence removal, `Intent(...)` mapping, the
  `try/except` fail-soft) is embedded concretely.
-/

/-! ## Intent enumeration (`class Intent(Enum)`) -/

/-- The closed intent set of `intent_classifier.py`. -/
inductive Intent where
  | NAV_NEXT
  | NAV_PREV
  | NAV_GO_TO
  | NAV_REPEAT
  | NAV_START
  | QUESTION
  | SEARCH_RECIPE
  | START_RECIPE
  | STOP_PAUSE
  | RESUME
  | CONFIRM
  | CANCEL
  | SMALL_TALK
  | CLARIFY
  | HELP
  | UNKNOWN
deriving DecidableEq, Repr

/-- `Intent.value`: the string tag of each enum member. -/
def intentValue : Intent → String
  | .NAV_NEXT => "nav_next"
  | .NAV_PREV => "nav_prev"
  | .NAV_GO_TO => "nav_go_to"
  | .NAV_REPEAT => "nav_repeat"
  | .NAV_START => "nav_start"
  | .QUESTION => "question"
  | .SEARCH_RECIPE => "search_recipe"
  | .START_RECIPE => "start_recipe"
  | .STOP_PAUSE => "stop_pause"
  | .RESUME => "resume"
  | .CONFIRM => "confirm"
  | .CANCEL => "cancel"
  | .SMALL_TALK => "small_talk"
  | .CLARIFY => "clarify"
  | .HELP => "help"
  | .UNKNOWN => "unknown"

/-- The list of all enum members, in declaration order. -/
def allIntents : List Intent :=
  [.NAV_NEXT, .NAV_PREV, .NAV_GO_TO, .NAV_REPEAT, .NAV_START, .QUESTION,
   .SEARCH_RECIPE, .START_RECIPE, .STOP_PAUSE, .RESUME, .CONFIRM, .CANCEL,
   .SMALL_TALK, .CLARIFY, .HELP, .UNKNOWN]

/-- `Intent(s)`: look up the enum member whose value is `s`
(`none` models the `ValueError` of an unrecognized tag). -/
def intentOfString (s : String) : Option Intent :=
  allIntents.find? (fun i => intentValue i = s)

/-! ## Entity dictionaries -/

/-- A value stored in an entities dictionary (the source stores step
numbers as `int` and everything else as `str`). -/
inductive EV where
  | int (i : Int)
  | str (s : List Char)
deriving DecidableEq, Repr

/-- An entities dictionary, in insertion order. -/
abbrev Entities := List (String × EV)

/-! ## Python string helpers used by the classifier -/

/-- Python `str.isspace`-relevant ASCII whitespace used by `str.strip()`. -/
def pyIsSpace (c : Char) : Bool :=
  c = ' ' || c = '\t' || c = '\n' || c = '\r' || c = Char.ofNat 11 || c = Char.ofNat 12

/-- Python `s.strip()`. -/
def pyStrip (s : List Char) : List Char :=
  ((s.dropWhile pyIsSpace).reverse.dropWhile pyIsSpace).reverse

/-- Python `s.lower()` (ASCII inputs). -/
def pyLower (s : List Char) : List Char := s.map Char.toLower

/-- Helper for `str.find`: the lowest index `≥ i` at which `needle`
occurs in `hay` (indices counted from the original start). -/
def pyFindAux (needle : List Char) : List Char → Nat → Option Nat
  | [], i => if needle = [] then some i else none
  | c :: rest, i =>
      if needle.isPrefixOf (c :: rest) then some i
      else pyFindAux needle rest (i + 1)

/-- Python `hay.find(needle)`: first occurrence index, `-1` if absent. -/
def pyFind (hay needle : List Char) : Int :=
  match pyFindAux needle hay 0 with
  | some i => (i : Int)
  | none => -1

/-- Python `hay.find(needle, start)`. -/
def pyFindFrom (hay needle : List Char) (start : Nat) : Int :=
  match pyFindAux needle (hay.drop start) start with
  | some i => (i : Int)
  | none => -1

/-- Python `needle in hay` for strings. -/
def pyContains (hay needle : List Char) : Bool :=
  decide (0 ≤ pyFind hay needle)

/-- Python slice `s[i:j]` for `0 ≤ i` and `j` possibly negative. -/
def pySlice (s : List Char) (i : Nat) (j : Int) : List Char :=
  let n : Int := s.length
  let jn : Int := if j < 0 then max 0 (n + j) else min j n
  if (i : Int) ≤ jn then (s.drop i).take (jn - i).toNat else []

/-! ## A small regular-expression engine

The pattern table of `_initialize_patterns` is a fixed collection of
Python `re` patterns.  They use only: literals, alternation, grouping,
`?`, `*`, `+` (greedy), `+?` (lazy, in the entity-extraction patterns),
`.`, `\b`, `\d`, `\s`, `\w`, `$` and one negative lookahead `(?!...)`.
The engine below implements exactly these constructs with Python's
backtracking priority (leftmost start position first; within a
position, left alternative first, greedy repetition longest first,
lazy repetition shortest first).  All classified inputs have already
been lowered, so `re.IGNORECASE` is inert on these lowercase patterns.
-/

/-- Regex abstract syntax (the constructs used by the source patterns).
`star r false` is greedy `r*`, `star r true` is lazy `r*?`. -/
inductive RE where
  | eps
  | ch (c : Char)
  | anyc
  | digit
  | space
  | wordc
  | seq (a b : RE)
  | alt (a b : RE)
  | star (a : RE) (lazy : Bool)
  | opt (a : RE)
  | bound
  | eos
  | neglook (a : RE)
  | group (n : Nat) (a : RE)
deriving DecidableEq, Repr

/-- Captured groups: group number paired with captured text. -/
abbrev Caps := List (Nat × List Char)

/-- Python `\w` on ASCII input. -/
def isWordChar (c : Char) : Bool := c.isAlphanum || c = '_'

/-- Whether the position between `prev` (reversed already-consumed text)
and `rest` is a `\b` word boundary. -/
def atBoundary (prev rest : List Char) : Bool :=
  let l := match prev with | [] => false | c :: _ => isWordChar c
  let r := match rest with | [] => false | c :: _ => isWordChar c
  l != r

/-- One backtracking matching step.  `prev` is the consumed text
reversed (needed for `\b`), `rest` the remaining text, `caps` the
captures so far, `k` the continuation.  `fuel` bounds the recursion
nesting; it is decremented at every node and every repetition
unfolding, and the driver below always supplies enough for the
fixed source patterns, whose repetition bodies all consume at least
one character per iteration. -/
def reM : Nat → RE → List Char → List Char → Caps →
    (List Char → List Char → Caps → Option Caps) → Option Caps
  | 0, _, _, _, _, _ => none
  | fuel + 1, re, prev, rest, caps, k =>
    match re with
    | .eps => k prev rest caps
    | .ch c =>
        match rest with
        | [] => none
        | x :: xs => if x = c then k (x :: prev) xs caps else none
    | .anyc =>
        match rest with
        | [] => none
        | x :: xs => if x = '\n' then none else k (x :: prev) xs caps
    | .digit =>
        match rest with
        | [] => none
        | x :: xs => if x.isDigit then k (x :: prev) xs caps else none
    | .space =>
        match rest with
        | [] => none
        | x :: xs => if pyIsSpace x then k (x :: prev) xs caps else none
    | .wordc =>
        match rest with
        | [] => none
        | x :: xs => if isWordChar x then k (x :: prev) xs caps else none
    | .seq a b =>
        reM fuel a prev rest caps (fun p r c => reM fuel b p r c k)
    | .alt a b =>
        match reM fuel a prev rest caps k with
        | some out => some out
        | none => reM fuel b prev rest caps k
    | .star a lazy =>
        if lazy then
          match k prev rest caps with
          | some out => some out
          | none =>
              reM fuel a prev rest caps (fun p r c =>
                if r.length < rest.length then reM fuel (.star a lazy) p r c k
                else none)
        else
          match
            reM fuel a prev rest caps (fun p r c =>
              if r.length < rest.length then reM fuel (.star a lazy) p r c k
              else none)
          with
          | some out => some out
          | none => k prev rest caps
    | .opt a =>
        match reM fuel a prev rest caps k with
        | some out => some out
        | none => k prev rest caps
    | .bound => if atBoundary prev rest then k prev rest caps else none
    | .eos =>
        if rest = [] || rest = ['\n'] then k prev rest caps else none
    | .neglook a =>
        match reM fuel a prev rest caps (fun _ _ c => some c) with
        | some _ => none
        | none => k prev rest caps
    | .group n a =>
        let p0 := prev.length
        reM fuel a prev rest caps (fun p r c =>
          k p r ((n, (p.take (p.length - p0)).reverse) :: c))

/-- Structural size of a regex, for the fuel bound. -/
def reSize : RE → Nat
  | .seq a b => reSize a + reSize b + 1
  | .alt a b => reSize a + reSize b + 1
  | .star a _ => reSize a + 1
  | .opt a => reSize a + 1
  | .neglook a => reSize a + 1
  | .group _ a => reSize a + 1
  | _ => 1

/-- Fuel sufficient for matching `re` against a text of length `n`
(each repetition iteration consumes a character in the source
patterns, so nesting depth is bounded by `reSize * (n + 2)`). -/
def fuelFor (re : RE) (n : Nat) : Nat := (reSize re + 2) * (n + 2) * 2

/-- Try a match of `re` starting at each position of the text from left
to right, as `re.search` does; returns the captures of the first
(leftmost) successful match. -/
def reSearchAux (fuel : Nat) (re : RE) : List Char → List Char → Option Caps
  | prev, rest =>
    match reM fuel re prev rest [] (fun _ _ c => some c) with
    | some caps => some caps
    | none =>
        match rest with
        | [] => none
        | x :: xs => reSearchAux fuel re (x :: prev) xs

/-- `re.search(pattern, text)`: `some caps` on a match, `none` otherwise. -/
def reSearch (re : RE) (text : List Char) : Option Caps :=
  reSearchAux (fuelFor re text.length) re [] text

/-- Whether `re.search` finds a match. -/
def reTest (re : RE) (text : List Char) : Bool :=
  (reSearch re text).isSome

/-- `match.group(n)` from the captures of a match. -/
def capGroup (caps : Caps) (n : Nat) : Option (List Char) :=
  match caps.find? (fun p => p.1 = n) with
  | some p => some p.2
  | none => none

/-! Combinators used to transcribe the source pattern strings. -/

/-- Literal string regex. -/
def rlit (s : String) : RE :=
  (s.toList.map RE.ch).foldr RE.seq RE.eps

/-- Concatenation of a list of regexes. -/
def rcat (l : List RE) : RE := l.foldr RE.seq RE.eps

/-- Alternation `a|b|...` (left-to-right priority). -/
def ralts : List RE → RE
  | [] => RE.eps
  | [r] => r
  | r :: rs => RE.alt r (ralts rs)

/-- Alternation of literal strings. -/
def rwords (l : List String) : RE := ralts (l.map rlit)

/-- Greedy `r*`. -/
def rstar (r : RE) : RE := RE.star r false

/-- Greedy `r+`. -/
def rplus (r : RE) : RE := RE.seq r (RE.star r false)

/-- Lazy `r+?`. -/
def rplusLazy (r : RE) : RE := RE.seq r (RE.star r true)

/-- The apostrophe character (numeric to keep source text plain). -/
def aposC : Char := Char.ofNat 39

/-- `'?` — an optional apostrophe, as in the source contractions. -/
def raposOpt : RE := RE.opt (RE.ch aposC)

/-! ## The pattern table (`_initialize_patterns`)

Each entry transcribes one source pattern string into the regex AST,
with its base confidence.  Confidences are percentages over 100.
Parenthesized groups of the table patterns are transcribed as plain
grouping (no capture recording) because `_extract_entities` never reads
its `match` argument; the entity-extraction regexes further below do
record their group 1. -/

/-- Percent written as a rational: `qpc 95 = 0.95`. -/
def qpc (n : Nat) : ℚ := mkRat (n : Int) 100

/-- String to character list. -/
def tl (s : String) : List Char := s.toList

/-- `\b` -/
def rb : RE := RE.bound

/-- The table of `_initialize_patterns`, in dict insertion order. -/
def intentPatterns : List (Intent × List (RE × ℚ)) :=
  [ (Intent.NAV_NEXT,
     [ (rcat [rb, rwords ["next", "continue", "forward", "proceed", "go ahead", "move on"], rb], qpc 95),
       (rcat [rb, ralts [rcat [rlit "what", raposOpt, rlit "s next"], rlit "after that", rlit "then what"], rb], qpc 90),
       (rcat [rb, rwords ["skip", "move forward"], rb], qpc 85) ]),
    (Intent.NAV_PREV,
     [ (rcat [rb, rwords ["previous", "back", "before", "earlier", "go back", "last step"], rb], qpc 95),
       (rcat [rb, ralts [rcat [rlit "what was ", rwords ["that", "the last"]], rlit "can you repeat", rlit "say that again"], rb], qpc 85),
       (rcat [rb, rwords ["undo", "rewind"], rb], qpc 80) ]),
    (Intent.NAV_GO_TO,
     [ (rcat [rb, rwords ["go to", "jump to", "skip to"], RE.ch ' ',
              RE.opt (rwords ["step", "ingredient"]), rstar RE.space,
              ralts [rplus RE.digit, rlit "first", rlit "last", rlit "beginning", rlit "end"], rb], qpc 95),
       (rcat [rb, RE.opt (rwords ["step", "ingredient"]), rstar RE.space,
              ralts [rplus RE.digit, rlit "first", rlit "last"], rb], qpc 70) ]),
    (Intent.NAV_START,
     [ (rcat [rb, rwords ["repeat", "start", "begin"], rstar RE.anyc,
              RE.opt (rlit "from "), RE.opt (rlit "the "),
              rwords ["beginning", "start", "top", "starting"], rb], qpc 95),
       (rcat [rb, ralts [rlit "start", rlit "begin",
                         rcat [rlit "let", raposOpt, rlit "s ", rwords ["start", "begin", "go"]],
                         rlit "show me how"], rb], qpc 95),
       (rcat [rb, ralts [rcat [rlit "from the ", rwords ["beginning", "start", "top"]], rlit "take me through"], rb], qpc 90),
       (rcat [rb, rwords ["restart", "start over", "begin again"], rb], qpc 95) ]),
    (Intent.NAV_REPEAT,
     [ (rcat [rb, ralts [rlit "repeat",
                         rcat [rlit "say ", rwords ["that", "it"], rlit " again"],
                         rlit "one more time", rlit "again", rlit "pardon"],
              RE.neglook (rcat [rstar RE.anyc, rwords ["beginning", "start", "top", "starting"]]), rb], qpc 95),
       (rcat [rb, ralts [rlit "what did you say",
                         rcat [rlit "didn", raposOpt, rlit "t ", rwords ["catch", "hear"], rlit " that"]], rb], qpc 90),
       (rcat [rb, rwords ["come again", "excuse me"], rb], qpc 75) ]),
    (Intent.SMALL_TALK,
     [ (rcat [rb, ralts [rlit "hi", rlit "hello", rlit "hey",
                         rcat [rlit "good ", rwords ["morning", "afternoon", "evening"]],
                         rlit "greetings"], rb], qpc 95),
       (rcat [rb, ralts [rlit "how are you", rcat [rlit "how", raposOpt, rlit "re you"],
                         rlit "how are u", rlit "how r u",
                         rcat [rlit "how", raposOpt, rlit "s it going"],
                         rcat [rlit "what", raposOpt, rlit "s up"]], rb], qpc 95),
       (rcat [rb, rwords ["thanks", "thank you", "bye", "goodbye", "see you", "take care"], rb], qpc 95),
       (rcat [rb, rwords ["nice", "great", "awesome", "cool", "good job", "well done"], rb, RE.eos], qpc 90),
       (rcat [rb, ralts [rlit "weather", rcat [rlit "how", raposOpt, rlit "s your day"],
                         rlit "doing today", rlit "feeling"], rb], qpc 85) ]),
    (Intent.QUESTION,
     [ (rcat [rb, rwords ["substitute", "replace", "alternative", "instead of", "swap"], rb], qpc 90),
       (rcat [rb, rwords ["how much", "how many", "how long", "what temperature", "what time"], rb], qpc 95),
       (rcat [rb, rwords ["why", "when", "where", "which"], rb, rstar RE.anyc,
              rwords ["step", "ingredient", "recipe", "cook", "add", "mix", "heat"], rb], qpc 85),
       (rcat [rb, rwords ["what", "how"], rstar RE.anyc,
              rwords ["temperature", "time", "long", "much", "many", "ingredient", "substitute"], rb], qpc 85),
       (rcat [rb, rwords ["can i", "could i", "should i", "is it okay"], rstar RE.anyc,
              rwords ["use", "add", "replace", "skip"], rb], qpc 90),
       (rcat [rb, ralts [rcat [rlit "tell me ", rwords ["about", "more"]], rlit "explain", rlit "describe"],
              rstar RE.anyc, rwords ["recipe", "step", "ingredient", "process"], rb], qpc 85) ]),
    (Intent.SEARCH_RECIPE,
     [ (rcat [rb, rwords ["find", "search", "look for", "show me", "give me", "i want", "i need"],
              RE.ch ' ', RE.opt (rwords ["a ", "some ", "the "]), rwords ["recipe", "dish"], rb], qpc 95),
       (rcat [rb, ralts [rcat [rlit "how ", rwords ["do", "to"], RE.ch ' ', rwords ["make", "cook", "prepare"]],
                         rlit "recipe for"], rb], qpc 90),
       (rcat [rb, rwords ["cook", "make", "prepare"], rplus RE.space, rplus RE.wordc], qpc 70) ]),
    (Intent.START_RECIPE,
     [ (rcat [rb, ralts [rlit "start", rlit "begin",
                         rcat [rlit "let", raposOpt, rlit "s ", rwords ["do", "make", "cook"]]],
              RE.ch ' ', rwords ["this", "that", "it", "the recipe"], rb], qpc 95),
       (rcat [rb, ralts [rcat [rlit "okay let", raposOpt, rlit "s go"],
                         rcat [rlit "let", raposOpt, rlit "s start cooking"],
                         rlit "ready to cook"], rb], qpc 90),
       (rcat [rb, ralts [rcat [rlit "show me ", RE.opt (rwords ["the ", "how to "]), rlit "steps"],
                         rlit "walk me through"], rb], qpc 85) ]),
    (Intent.STOP_PAUSE,
     [ (rcat [rb, rwords ["stop", "pause", "wait", "hold on", "hang on"], rb], qpc 95),
       (rcat [rb, ralts [rcat [rlit "just a ", rwords ["second", "minute", "moment"]],
                         rcat [rlit "give me a ", rwords ["second", "minute"]]], rb], qpc 90),
       (rcat [rb, rwords ["cancel", "never mind", "stop reading"], rb], qpc 85) ]),
    (Intent.RESUME,
     [ (rcat [rb, rwords ["resume", "continue", "go on", "keep going", "carry on"], rb], qpc 95),
       (rcat [rb, ralts [rcat [rlit "okay ", rwords ["continue", "go ahead"]],
                         rcat [rlit "i", raposOpt, rlit "m back"], rlit "ready now"], rb], qpc 90) ]),
    (Intent.CONFIRM,
     [ (rcat [rb, rwords ["yes", "yeah", "yep", "sure", "okay", "ok", "alright", "correct", "right", "exactly"], rb, RE.eos], qpc 95),
       (rcat [rb, ralts [rcat [rlit "that", raposOpt, rlit "s ", rwords ["right", "correct"]],
                         rlit "sounds good", rlit "go ahead"], rb], qpc 90),
       (rcat [rb, rwords ["affirmative", "indeed", "absolutely"], rb], qpc 85) ]),
    (Intent.CANCEL,
     [ (rcat [rb, ralts [rlit "no", rlit "nope", rlit "nah", rlit "cancel", rlit "stop",
                         rcat [rlit "don", raposOpt, rlit "t"], rlit "never mind"], rb], qpc 95),
       (rcat [rb, ralts [rcat [rlit "not ", rwords ["really", "now"]], rlit "maybe later",
                         rcat [rlit "skip ", rwords ["it", "this"]]], rb], qpc 85) ]),
    (Intent.HELP,
     [ (rcat [rb, rwords ["help", "assist", "support", "what can you do", "commands"], rb], qpc 95),
       (rcat [rb, ralts [rcat [rlit "how ", rwords ["do", "does"], RE.ch ' ', rwords ["this", "it"], rlit " work"],
                         rlit "instructions", rlit "guide"], rb], qpc 90),
       (rcat [rb, ralts [rcat [rlit "i", raposOpt, rlit "m ", rwords ["lost", "confused", "stuck"]],
                         rcat [rlit "don", raposOpt, rlit "t understand"]], rb], qpc 85) ]) ]

/-! ## Entity extraction (`_extract_entities`) -/

/-- `\b(\d+)\b` of the `nav_go_to` branch. -/
def goToNumRe : RE := rcat [rb, RE.group 1 (rplus RE.digit), rb]

/-- First `search_recipe` extraction pattern. -/
def searchRecipeRe1 : RE :=
  rcat [rwords ["recipe for", "make", "cook", "prepare", "find", "search for", "show me"],
        rplus RE.space, RE.opt (rwords ["a ", "an ", "the ", "some "]),
        RE.group 1 (rplusLazy RE.anyc), ralts [RE.ch '?', RE.eos]]

/-- Second `search_recipe` extraction pattern. -/
def searchRecipeRe2 : RE :=
  rcat [rwords ["how to make", "how to cook", "how to prepare"],
        rplus RE.space, RE.opt (rwords ["a ", "an ", "the ", "some "]),
        RE.group 1 (rplusLazy RE.anyc), ralts [RE.ch '?', RE.eos]]

/-- Question-type keyword checks, in source priority order. -/
def qSubRe : RE := rcat [rb, rwords ["substitute", "replace", "instead of", "alternative"], rb]

/-- `\b(how long|how much time|duration)\b` -/
def qTimingRe : RE := rcat [rb, rwords ["how long", "how much time", "duration"], rb]

/-- `\b(how much|how many|quantity)\b` -/
def qQuantityRe : RE := rcat [rb, rwords ["how much", "how many", "quantity"], rb]

/-- `\b(what temperature|how hot)\b` -/
def qTemperatureRe : RE := rcat [rb, rwords ["what temperature", "how hot"], rb]

/-- Digit string to integer (`int(...)` on a `\d+` capture). -/
def digitsToInt (ds : List Char) : Int :=
  (ds.foldl (fun a c => a * 10 + (c.toNat - 48)) 0 : Nat)

/-- `_extract_entities`: intent-specific entity dictionary. -/
def extract_entities (intent : Intent) (text : List Char) : Entities :=
  let goTo : Entities :=
    if intent = Intent.NAV_GO_TO then
      match reSearch goToNumRe text with
      | some caps =>
          match capGroup caps 1 with
          | some ds => [("step_number", EV.int (digitsToInt ds))]
          | none => []
      | none =>
          if pyContains text (tl "first") || pyContains text (tl "beginning")
              || pyContains text (tl "start") then
            [("step_number", EV.int 1), ("position", EV.str (tl "first"))]
          else if pyContains text (tl "last") || pyContains text (tl "end") then
            [("position", EV.str (tl "last"))]
          else []
    else []
  let search : Entities :=
    if intent = Intent.SEARCH_RECIPE then
      match reSearch searchRecipeRe1 text with
      | some caps => [("recipe_name", EV.str (pyStrip ((capGroup caps 1).getD [])))]
      | none =>
          match reSearch searchRecipeRe2 text with
          | some caps => [("recipe_name", EV.str (pyStrip ((capGroup caps 1).getD [])))]
          | none => []
    else []
  let question : Entities :=
    if intent = Intent.QUESTION then
      [("question_text", EV.str text),
       ("question_type", EV.str (tl
         (if reTest qSubRe text then "substitution"
          else if reTest qTimingRe text then "timing"
          else if reTest qQuantityRe text then "quantity"
          else if reTest qTemperatureRe text then "temperature"
          else "general")))]
    else []
  goTo ++ search ++ question

/-! ## Context boosting (`_apply_context_boost`) -/

/-- The session-context view handed to `classify` (the dict keys the
classifier reads; a missing key is `none`). -/
structure Ctx where
  current_state : Option String
  recipe_id : Option String
  current_section : Option String
  paused : Option String
deriving DecidableEq

/-- `context.get("current_state", "IDLE")`. -/
def ctxState (ctx : Ctx) : String := ctx.current_state.getD "IDLE"

/-- Whether the state is one of the active-reading states of the boosts. -/
def isActiveReading (s : String) : Bool :=
  s = "READING_INGREDIENTS" || s = "READING_STEPS" || s = "RECIPE_ACTIVE"

/-- `_apply_context_boost`: sequential, additive, capped adjustments.
The `entities` argument is kept for signature fidelity; the source
never reads it. -/
def apply_context_boost (intent : Intent) (base_confidence : ℚ)
    (context : Option Ctx) (_entities : Entities) : ℚ :=
  match context with
  | none => base_confidence
  | some ctx =>
      let current_state := ctxState ctx
      let confidence := base_confidence
      let confidence :=
        if (intent = .NAV_NEXT ∨ intent = .NAV_PREV ∨ intent = .NAV_REPEAT ∨ intent = .NAV_GO_TO)
            ∧ isActiveReading current_state then
          min 1 (confidence + qpc 10)
        else confidence
      let confidence :=
        if intent = .START_RECIPE ∧ current_state = "RECIPE_SELECTED" then
          min 1 (confidence + qpc 15)
        else confidence
      let confidence :=
        if intent = .RESUME ∧ (ctx.paused = some "true" ∨ current_state = "PAUSED") then
          min 1 (confidence + qpc 15)
        else confidence
      let confidence :=
        if intent = .QUESTION ∧ isActiveReading current_state then
          min 1 (confidence + qpc 5)
        else confidence
      confidence

/-! ## Rule-based classification (`_rule_based_classify`) -/

/-- `_rule_based_classify`: scan every pattern of every intent, keep the
single best (strictly higher adjusted confidence replaces). -/
def rule_based_classify (context : Option Ctx) (normalized_input : List Char) :
    Intent × ℚ × Entities :=
  intentPatterns.foldl (fun best ip =>
    ip.2.foldl (fun best pr =>
      if reTest pr.1 normalized_input then
        let entities := extract_entities ip.1 normalized_input
        let adjusted := apply_context_boost ip.1 pr.2 context entities
        if best.2.1 < adjusted then (ip.1, adjusted, entities) else best
      else best) best)
    (Intent.UNKNOWN, 0, ([] : Entities))

/-! ## Fallback classification (`_llm_classify`) -/

/-- The structured fields the source pulls out of the collaborator's
parsed JSON answer: `result.get("intent", "unknown")`,
`float(result.get("confidence", 0.5))`, `result.get("entities", {})`
(defaults already applied). -/
structure LlmAnswer where
  intentStr : String
  confidence : ℚ
  entities : Entities
deriving DecidableEq

/-- The fail-soft result of every exception path:
`return Intent.UNKNOWN, 0.3, {}`. -/
def llmFailResult : Intent × ℚ × Entities := (Intent.UNKNOWN, qpc 30, [])

/-- The literal three-backtick-json opening fence. -/
def fenceJson : List Char := tl "```json"

/-- The literal three-backtick fence. -/
def fenceTicks : List Char := tl "```"

/-- Markdown fence removal of `_llm_classify` (the `"```json" in ...`
and `"```" in ...` branches with `find` and slicing). -/
def stripFencing (s : List Char) : List Char :=
  if pyContains s fenceJson then
    let json_start := (pyFind s fenceJson).toNat + 7
    let json_end := pyFindFrom s fenceTicks json_start
    pyStrip (pySlice s json_start json_end)
  else if pyContains s fenceTicks then
    let json_start := (pyFind s fenceTicks).toNat + 3
    let json_end := pyFindFrom s fenceTicks json_start
    pyStrip (pySlice s json_start json_end)
  else s

/-- `_llm_classify`.  `apiResponse` is the collaborator's raw response
text (`none`: the API call raised); `parse` abstracts `json.loads`
plus field extraction (`none`: parsing or a field conversion raised).
Every exception path lands on `llmFailResult`. -/
def llm_classify (parse : List Char → Option LlmAnswer)
    (apiResponse : Option (List Char)) : Intent × ℚ × Entities :=
  match apiResponse with
  | none => llmFailResult
  | some raw =>
      let response_text := pyStrip raw
      let response_text := stripFencing response_text
      match parse response_text with
      | none => llmFailResult
      | some a =>
          let intent := (intentOfString a.intentStr).getD Intent.UNKNOWN
          (intent, a.confidence, a.entities)

/-! ## The hybrid resolver (`classify`) -/

/-- The constructor arguments of `IntentClassifier` (after the init has
settled `use_llm_fallback`, which is forced off when no API key is
present). -/
structure ClassifierConfig where
  confidence_threshold : ℚ
  use_llm_fallback : Bool
deriving DecidableEq

/-- `IntentClassifier.classify`: empty-input early return, normalize,
rule-based classification, conditional fallback, strict-greater
selection. -/
def classify (cfg : ClassifierConfig) (parse : List Char → Option LlmAnswer)
    (apiResponse : Option (List Char)) (user_input : List Char)
    (context : Option Ctx) : Intent × ℚ × Entities :=
  if user_input = [] ∨ pyStrip user_input = [] then (Intent.UNKNOWN, 0, [])
  else
    let normalized_input := pyStrip (pyLower user_input)
    let rbr := rule_based_classify context normalized_input
    if rbr.2.1 < cfg.confidence_threshold ∧ cfg.use_llm_fallback then
      let lr := llm_classify parse apiResponse
      if rbr.2.1 < lr.2.1 then lr else rbr
    else rbr

/-! ## Session records (`session_manager.py`)

The session dict created by `create_session`, embedded as a structure
with one field per key.  Timestamps are instants (ℚ); the
`timer_end_time` isoformat string is `Option ℚ` (`none` is the empty
string); `response_structure` is the structured recipe payload, the
empty dict when no `recipe_data` was supplied. -/

/-- One step of the structured recipe payload. -/
structure StepData where
  step_num : Int
  text : String
deriving DecidableEq

/-- The structured recipe payload (`recipe_data`): the keys read by the
session manager.  The empty payload stands for the empty dict. -/
structure RecipeData where
  greeting : String
  ingredients : List String
  steps : List StepData
  closing : String
deriving DecidableEq

/-- The empty payload (`{}`). -/
def emptyRecipe : RecipeData := ⟨"", [], [], ""⟩

/-- One conversation turn (`add_conversation_turn`'s dict). -/
structure ConversationTurn where
  role : String
  content : String
  timestamp : ℚ
  intent : Option String
  entities : List (String × String)
deriving DecidableEq

/-- The session record, one field per key of `create_session`'s dict. -/
structure SessionData where
  session_id : String
  recipe_id : String
  recipe_title : String
  step_index : Int
  total_steps : Int
  current_chunk_id : String
  last_intent : String
  clarification_pending : Bool
  paused : Bool
  current_state : String
  current_section : String
  context_buffer : String
  created_at : ℚ
  last_activity : ℚ
  response_structure : RecipeData
  ingredients_spoken : List Int
  steps_spoken : List Int
  sections_spoken : List String
  conversation_history : List ConversationTurn
  user_preferences : List (String × String)
  timer_active : Bool
  timer_end_time : Option ℚ
  timer_duration : Int
  current_audio_chunk : Int
  total_audio_chunks : Int
  playback_position : Int
deriving DecidableEq

/-! ## The manager state (`SessionManager` + the Upstash store) -/

/-- The key-value backing store, keyed by `"session:" ++ id`. -/
abbrev Store := List (String × SessionData)

/-- `SessionManager` state plus the backing store.  `redis_active`
is `redis_client is not None` (false: degraded mode).  `redis_calls`
is ghost instrumentation: it counts every backing-store command
(get/setex/delete) the manager attempts, so that theorems can state
that degraded mode attempts none. -/
structure SMState where
  redis_active : Bool
  store : Store
  session_ttl : Int
  default_history_limit : Nat
  redis_calls : Nat
deriving DecidableEq

/-- The key namespace `session:<id>`. -/
def skey (session_id : String) : String := "session:" ++ session_id

/-- Store lookup (Redis `get`). -/
def storeGet (st : Store) (k : String) : Option SessionData :=
  match st with
  | [] => none
  | (k2, d) :: rest => if k2 = k then some d else storeGet rest k

/-- Store write (Redis `setex`, ignoring the TTL argument): replace the
binding of `k`, or append it. -/
def storeSet (st : Store) (k : String) (d : SessionData) : Store :=
  match st with
  | [] => [(k, d)]
  | (k2, d2) :: rest =>
      if k2 = k then (k2, d) :: rest else (k2, d2) :: storeSet rest k d

/-- Store delete (Redis `delete`). -/
def storeDel (st : Store) (k : String) : Store :=
  st.filter (fun kv => kv.1 ≠ k)

/-! ## Operations of `SessionManager`

Each operation takes the current instant `now : ℚ` (the value of every
`datetime.utcnow()` call inside it) and returns its Python return value
paired with the successor state. -/

/-- `create_session`: build the fresh record and, when the client is
available, write it; the record is returned unconditionally. -/
def create_session (st : SMState) (now : ℚ) (session_id recipe_id recipe_title : String)
    (total_steps : Int) (recipe_data : Option RecipeData) : SessionData × SMState :=
  let session_data : SessionData :=
    { session_id := session_id
      recipe_id := recipe_id
      recipe_title := recipe_title
      step_index := 0
      total_steps := total_steps
      current_chunk_id := ""
      last_intent := ""
      clarification_pending := false
      paused := false
      current_state := "RECIPE_SELECTED"
      current_section := "idle"
      context_buffer := ""
      created_at := now
      last_activity := now
      response_structure := recipe_data.getD emptyRecipe
      ingredients_spoken := []
      steps_spoken := []
      sections_spoken := []
      conversation_history := []
      user_preferences := []
      timer_active := false
      timer_end_time := none
      timer_duration := 0
      current_audio_chunk := 0
      total_audio_chunks := 0
      playback_position := 0 }
  if st.redis_active then
    (session_data,
     { st with store := storeSet st.store (skey session_id) session_data
               redis_calls := st.redis_calls + 1 })
  else (session_data, st)

/-- `_update_session`: whole-record write, `false` in degraded mode. -/
def update_session_raw (st : SMState) (session_id : String) (session_data : SessionData) :
    Bool × SMState :=
  if st.redis_active then
    (true,
     { st with store := storeSet st.store (skey session_id) session_data
               redis_calls := st.redis_calls + 1 })
  else (false, st)

/-- `get_session`: read the record; on a hit, refresh `last_activity`
and write the record back (reads extend the TTL). -/
def get_session (st : SMState) (now : ℚ) (session_id : String) :
    Option SessionData × SMState :=
  if st.redis_active then
    let st1 := { st with redis_calls := st.redis_calls + 1 }
    match storeGet st1.store (skey session_id) with
    | some d =>
        let d2 := { d with last_activity := now }
        let (_, st2) := update_session_raw st1 session_id d2
        (some d2, st2)
    | none => (none, st1)
  else (none, st)

/-- `update_session`: read-modify-write of specific fields.  The Python
`updates` dict is the field transformation `f`; `last_activity` is then
refreshed, exactly as in the source. -/
def update_session (st : SMState) (now : ℚ) (session_id : String)
    (f : SessionData → SessionData) : Bool × SMState :=
  match get_session st now session_id with
  | (none, st1) => (false, st1)
  | (some d, st1) =>
      let d2 := { f d with last_activity := now }
      update_session_raw st1 session_id d2

/-- `delete_session`. -/
def delete_session (st : SMState) (session_id : String) : Bool × SMState :=
  if st.redis_active then
    (true,
     { st with store := storeDel st.store (skey session_id)
               redis_calls := st.redis_calls + 1 })
  else (false, st)

/-- Python truthiness of the optional `intent` string. -/
def intentTruthy : Option String → Bool
  | some s => s ≠ ""
  | none => false

/-- Python `l[-limit:]` for a natural `limit` (`limit = 0` yields the
whole list, since `l[-0:] = l[0:]`). -/
def pyTailSlice {α : Type} (l : List α) (limit : Nat) : List α :=
  if limit = 0 then l else l.drop (l.length - limit)

/-- `add_conversation_turn`: append, trim to `default_history_limit * 2`
entries from the oldest end, and update `last_intent` for truthy
user-role intents. -/
def add_conversation_turn (st : SMState) (now : ℚ) (session_id role content : String)
    (intent : Option String) (entities : Option (List (String × String))) :
    Bool × SMState :=
  match get_session st now session_id with
  | (none, st1) => (false, st1)
  | (some d, st1) =>
      let turn : ConversationTurn :=
        { role := role, content := content, timestamp := now,
          intent := intent, entities := entities.getD [] }
      let history := d.conversation_history ++ [turn]
      let limit := st.default_history_limit * 2
      let history := if limit < history.length then pyTailSlice history limit else history
      let d := { d with conversation_history := history }
      let d := if role = "user" ∧ intentTruthy intent then
                 { d with last_intent := intent.getD "" }
               else d
      update_session_raw st1 session_id d

/-- `mark_ingredient_spoken`: append if absent, else report success. -/
def mark_ingredient_spoken (st : SMState) (now : ℚ) (session_id : String)
    (ingredient_index : Int) : Bool × SMState :=
  match get_session st now session_id with
  | (none, st1) => (false, st1)
  | (some d, st1) =>
      if ingredient_index ∈ d.ingredients_spoken then (true, st1)
      else
        update_session_raw st1 session_id
          { d with ingredients_spoken := d.ingredients_spoken ++ [ingredient_index] }

/-- `mark_step_spoken`: append if absent and move `step_index` to the
marked number, else report success. -/
def mark_step_spoken (st : SMState) (now : ℚ) (session_id : String)
    (step_number : Int) : Bool × SMState :=
  match get_session st now session_id with
  | (none, st1) => (false, st1)
  | (some d, st1) =>
      if step_number ∈ d.steps_spoken then (true, st1)
      else
        update_session_raw st1 session_id
          { d with steps_spoken := d.steps_spoken ++ [step_number]
                   step_index := step_number }

/-- `mark_section_spoken`: append if absent and move `current_section`
to the marked name, else report success. -/
def mark_section_spoken (st : SMState) (now : ℚ) (session_id : String)
    (section_name : String) : Bool × SMState :=
  match get_session st now session_id with
  | (none, st1) => (false, st1)
  | (some d, st1) =>
      if section_name ∈ d.sections_spoken then (true, st1)
      else
        update_session_raw st1 session_id
          { d with sections_spoken := d.sections_spoken ++ [section_name]
                   current_section := section_name }

/-- `get_next_unspoken_ingredient`: first payload ingredient whose index
is not yet spoken (a read; `get_session` still refreshes the TTL). -/
def get_next_unspoken_ingredient (st : SMState) (now : ℚ) (session_id : String) :
    Option (Nat × String) × SMState :=
  match get_session st now session_id with
  | (none, st1) => (none, st1)
  | (some d, st1) =>
      let found := d.response_structure.ingredients.enum.find?
        (fun p => ¬ ((p.1 : Int) ∈ d.ingredients_spoken))
      (found, st1)

/-- `get_next_unspoken_step`: first payload step whose `step_num` is not
yet spoken. -/
def get_next_unspoken_step (st : SMState) (now : ℚ) (session_id : String) :
    Option StepData × SMState :=
  match get_session st now session_id with
  | (none, st1) => (none, st1)
  | (some d, st1) =>
      (d.response_structure.steps.find? (fun s => ¬ (s.step_num ∈ d.steps_spoken)), st1)

/-- `navigate_to_step`: absolute jump, rejected outside `[1, total_steps]`. -/
def navigate_to_step (st : SMState) (now : ℚ) (session_id : String)
    (step_number : Int) : Bool × SMState :=
  match get_session st now session_id with
  | (none, st1) => (false, st1)
  | (some d, st1) =>
      if 1 ≤ step_number ∧ step_number ≤ d.total_steps then
        update_session_raw st1 session_id
          { d with step_index := step_number, current_section := "steps" }
      else (false, st1)

/-- `navigate_next`: increment while below `total_steps`, else `none`. -/
def navigate_next (st : SMState) (now : ℚ) (session_id : String) :
    Option Int × SMState :=
  match get_session st now session_id with
  | (none, st1) => (none, st1)
  | (some d, st1) =>
      if d.step_index < d.total_steps then
        let new_step := d.step_index + 1
        let (_, st2) := update_session_raw st1 session_id { d with step_index := new_step }
        (some new_step, st2)
      else (none, st1)

/-- `navigate_prev`: decrement while above 1, else `none`. -/
def navigate_prev (st : SMState) (now : ℚ) (session_id : String) :
    Option Int × SMState :=
  match get_session st now session_id with
  | (none, st1) => (none, st1)
  | (some d, st1) =>
      if 1 < d.step_index then
        let new_step := d.step_index - 1
        let (_, st2) := update_session_raw st1 session_id { d with step_index := new_step }
        (some new_step, st2)
      else (none, st1)

/-- `set_pause`. -/
def set_pause (st : SMState) (now : ℚ) (session_id : String) (paused : Bool) :
    Bool × SMState :=
  update_session st now session_id (fun d =>
    { d with paused := paused
             current_state := if paused then "PAUSED" else "RECIPE_ACTIVE" })

/-- `set_timer`: absolute expiry `now + duration`, stored with the flag
and original duration. -/
def set_timer (st : SMState) (now : ℚ) (session_id : String)
    (duration_seconds : Int) : Bool × SMState :=
  let end_time := now + (duration_seconds : ℚ)
  update_session st now session_id (fun d =>
    { d with timer_active := true
             timer_end_time := some end_time
             timer_duration := duration_seconds })

/-- `clear_timer`. -/
def clear_timer (st : SMState) (now : ℚ) (session_id : String) : Bool × SMState :=
  update_session st now session_id (fun d =>
    { d with timer_active := false
             timer_end_time := none
             timer_duration := 0 })

/-- The dict returned by `check_timer`. -/
structure TimerResult where
  active : Bool
  remaining_seconds : Int
  expired : Bool
deriving DecidableEq

/-- Python `int(q)`: truncation toward zero. -/
def pyInt (q : ℚ) : Int := if 0 ≤ q then ⌊q⌋ else ⌈q⌉

/-- `check_timer`: remaining = expiry − now; expired timers are
auto-cleared as a side effect (the stored expiry round-trips exactly
through isoformat, so the `except` branch is unreachable). -/
def check_timer (st : SMState) (now : ℚ) (session_id : String) :
    TimerResult × SMState :=
  match get_session st now session_id with
  | (none, st1) => (⟨false, 0, false⟩, st1)
  | (some d, st1) =>
      if !d.timer_active then (⟨false, 0, false⟩, st1)
      else
        match d.timer_end_time with
        | none => (⟨false, 0, false⟩, st1)
        | some end_time =>
            let remaining := end_time - now
            if remaining ≤ 0 then
              let (_, st2) := clear_timer st1 now session_id
              (⟨false, 0, true⟩, st2)
            else (⟨true, pyInt remaining, false⟩, st1)

/-- `update_playback_position`: unconditional overwrite. -/
def update_playback_position (st : SMState) (now : ℚ) (session_id : String)
    (chunk_index total_chunks position : Int) : Bool × SMState :=
  update_session st now session_id (fun d =>
    { d with current_audio_chunk := chunk_index
             total_audio_chunks := total_chunks
             playback_position := position })

/-! ## Operation sequences over one manager

For the session-invariant claims we close the `SessionManager` API
(minus `create_session`) into an operation type, applied at explicit
instants. -/

/-- One `SessionManager` call on an existing-or-absent session. -/
inductive Op where
  | navNext (sid : String)
  | navPrev (sid : String)
  | navTo (sid : String) (n : Int)
  | markIng (sid : String) (i : Int)
  | markStep (sid : String) (n : Int)
  | markSec (sid : String) (s : String)
  | addTurn (sid role content : String) (intent : Option String)
      (entities : Option (List (String × String)))
  | setPauseOp (sid : String) (b : Bool)
  | setTimerOp (sid : String) (dur : Int)
  | clearTimerOp (sid : String)
  | checkTimerOp (sid : String)
  | updPlayback (sid : String) (ci tc pos : Int)
  | getSessionOp (sid : String)
  | getNextIngOp (sid : String)
  | getNextStepOp (sid : String)
  | deleteOp (sid : String)
deriving DecidableEq

/-- Apply one call at instant `now`, keeping only the state. -/
def applyOp (st : SMState) (now : ℚ) : Op → SMState
  | .navNext sid => (navigate_next st now sid).2
  | .navPrev sid => (navigate_prev st now sid).2
  | .navTo sid n => (navigate_to_step st now sid n).2
  | .markIng sid i => (mark_ingredient_spoken st now sid i).2
  | .markStep sid n => (mark_step_spoken st now sid n).2
  | .markSec sid s => (mark_section_spoken st now sid s).2
  | .addTurn sid role content intent entities =>
      (add_conversation_turn st now sid role content intent entities).2
  | .setPauseOp sid b => (set_pause st now sid b).2
  | .setTimerOp sid dur => (set_timer st now sid dur).2
  | .clearTimerOp sid => (clear_timer st now sid).2
  | .checkTimerOp sid => (check_timer st now sid).2
  | .updPlayback sid ci tc pos => (update_playback_position st now sid ci tc pos).2
  | .getSessionOp sid => (get_session st now sid).2
  | .getNextIngOp sid => (get_next_unspoken_ingredient st now sid).2
  | .getNextStepOp sid => (get_next_unspoken_step st now sid).2
  | .deleteOp sid => (delete_session st sid).2

/-- Apply a sequence of timed calls. -/
def applyOps (st : SMState) : List (ℚ × Op) → SMState
  | [] => st
  | (t, op) :: rest => applyOps (applyOp st t op) rest

/-- The canonical section names of the narration flow. -/
def validSection (s : String) : Bool :=
  s = "greeting" || s = "ingredients" || s = "steps" || s = "closing"

/-- The record-level invariant of §3 of the specification: step index
within `[0, total_steps]`, spoken ingredient indices within the
payload's ingredient list, spoken step numbers within
`[1, total_steps]`, spoken sections canonical. -/
def recOK (d : SessionData) : Bool :=
  decide (0 ≤ d.step_index) && decide (d.step_index ≤ d.total_steps) &&
  d.ingredients_spoken.all
    (fun i => decide (0 ≤ i) && decide (i < (d.response_structure.ingredients.length : Int))) &&
  d.steps_spoken.all (fun n => decide (1 ≤ n) && decide (n ≤ d.total_steps)) &&
  d.sections_spoken.all validSection

/-- Every record in the store satisfies the record invariant. -/
def invOK (st : SMState) : Bool :=
  st.store.all (fun kv => recOK kv.2)

/-- Arguments of the marking calls validated against the targeted
record (the source performs no such validation; this is the side
condition under which the invariant survives them). -/
def opOK (st : SMState) : Op → Bool
  | .markIng sid i =>
      match storeGet st.store (skey sid) with
      | some d => decide (0 ≤ i) && decide (i < (d.response_structure.ingredients.length : Int))
      | none => true
  | .markStep sid n =>
      match storeGet st.store (skey sid) with
      | some d => decide (1 ≤ n) && decide (n ≤ d.total_steps)
      | none => true
  | .markSec _ s => validSection s
  | _ => true

/-- Pointwise validity of a timed call sequence, each call checked in
the state it actually executes in. -/
def opsOK (st : SMState) : List (ℚ × Op) → Bool
  | [] => true
  | (t, op) :: rest => opOK st op && opsOK (applyOp st t op) rest

/-! ## Concrete fixtures for witnesses and counterexamples -/

/-- A freshly initialized manager with a reachable backing store
(`session_ttl = 3600`, `default_history_limit = 10`, as in `__init__`). -/
def smInit : SMState := ⟨true, [], 3600, 10, 0⟩

/-- A freshly initialized manager in degraded mode (`redis_client is
None`): same configuration, no store reachable. -/
def smDegraded : SMState := ⟨false, [], 3600, 10, 0⟩

/-- The structured payload of the source's own `test_session_manager`
fixture (three ingredients, three steps). -/
def demoRecipe : RecipeData :=
  { greeting := "Lets make delicious pasta!"
    ingredients := ["500g pasta", "2 cups tomato sauce", "1 onion, chopped"]
    steps := [⟨1, "Boil water in a large pot"⟩,
              ⟨2, "Add pasta and cook for 10 minutes"⟩,
              ⟨3, "Drain and serve with sauce"⟩]
    closing := "Enjoy your pasta!" }

/-- A collaborator answer wrapped in a markdown json code fence, as the
source expects to receive it. -/
def fencedAnswer (body : List Char) : List Char :=
  fenceJson ++ '\n' :: body ++ '\n' :: fenceTicks

/-- The backtick character. -/
def backtick : Char := Char.ofNat 96

/-! # Theorems settling the claims -/

/-- **C1.**  In `classify`, when the context-boosted rule-based
confidence is below the configured threshold and fallback is enabled,
the fallback classifier is invoked and its result is returned if and
only if its confidence is strictly greater than the rule-based
confidence; otherwise the rule-based result is returned unchanged —
also when the fallback result is `unknown` with confidence 0.3, since
the selection below quantifies over every fallback outcome. -/
theorem c1_fallback_selection (cfg : ClassifierConfig)
    (parse : List Char → Option LlmAnswer) (apiResponse : Option (List Char))
    (user_input : List Char) (context : Option Ctx)
    (hne : ¬ (user_input = [] ∨ pyStrip user_input = []))
    (hconf : (rule_based_classify context (pyStrip (pyLower user_input))).2.1
               < cfg.confidence_threshold)
    (hfb : cfg.use_llm_fallback = true) :
    classify cfg parse apiResponse user_input context =
      (if (rule_based_classify context (pyStrip (pyLower user_input))).2.1
            < (llm_classify parse apiResponse).2.1
       then llm_classify parse apiResponse
       else rule_based_classify context (pyStrip (pyLower user_input))) := by
  unfold classify
  rw [if_neg hne, if_pos ⟨hconf, hfb⟩]

/-- Witness for `c1_fallback_selection`: the utterance `"z"` matches no
rule (confidence 0 < 0.7), the collaborator answer is unparseable, so
the fallback result `unknown`/0.3 wins the strict comparison. -/
theorem c1_fallback_selection_witness :
    (¬ ((tl "z") = [] ∨ pyStrip (tl "z") = [])) ∧
    ((rule_based_classify none (pyStrip (pyLower (tl "z")))).2.1 < qpc 70) ∧
    classify ⟨qpc 70, true⟩ (fun _ => none) none (tl "z") none =
      (if (rule_based_classify none (pyStrip (pyLower (tl "z")))).2.1
            < (llm_classify (fun _ => none) none).2.1
       then llm_classify (fun _ => none) none
       else rule_based_classify none (pyStrip (pyLower (tl "z")))) :=
  ⟨by decide, by decide,
   c1_fallback_selection ⟨qpc 70, true⟩ (fun _ => none) none (tl "z") none
     (by decide) (by decide) rfl⟩

/-! ## Store and `get_session` helper lemmas -/

/-- A record found in a store all of whose records are valid is valid. -/
theorem all_storeGet {s : Store} (hall : s.all (fun kv => recOK kv.2) = true)
    {k : String} {d : SessionData} (hg : storeGet s k = some d) : recOK d = true := by
  induction s with
  | nil => simp [storeGet] at hg
  | cons kv rest ih =>
      obtain ⟨k2, d2⟩ := kv
      simp only [List.all_cons, Bool.and_eq_true] at hall
      by_cases hk : k2 = k
      · simp only [storeGet, if_pos hk] at hg
        cases hg
        exact hall.1
      · simp only [storeGet, if_neg hk] at hg
        exact ih hall.2 hg

/-- Writing a valid record into an all-valid store keeps it all-valid. -/
theorem all_storeSet {s : Store} (hall : s.all (fun kv => recOK kv.2) = true)
    (k : String) {d : SessionData} (hd : recOK d = true) :
    (storeSet s k d).all (fun kv => recOK kv.2) = true := by
  induction s with
  | nil => simp [storeSet, hd]
  | cons kv rest ih =>
      obtain ⟨k2, d2⟩ := kv
      simp only [List.all_cons, Bool.and_eq_true] at hall
      by_cases hk : k2 = k
      · simp [storeSet, if_pos hk, hd, hall.2]
      · simp only [storeSet, if_neg hk]
        simp [hall.1, ih hall.2]

/-- Deleting from an all-valid store keeps it all-valid. -/
theorem all_storeDel {s : Store} (hall : s.all (fun kv => recOK kv.2) = true)
    (k : String) : (storeDel s k).all (fun kv => recOK kv.2) = true := by
  induction s with
  | nil => simp [storeDel]
  | cons kv rest ih =>
      simp only [List.all_cons, Bool.and_eq_true] at hall
      by_cases hk : kv.1 ≠ k
      · simpa [storeDel, List.filter_cons, hk, hall.1] using ih hall.2
      · simpa [storeDel, List.filter_cons, hk] using ih hall.2

/-- Reading the key just written. -/
theorem storeGet_set_self (s : Store) (k : String) (d : SessionData) :
    storeGet (storeSet s k d) k = some d := by
  induction s with
  | nil => simp [storeSet, storeGet]
  | cons kv rest ih =>
      obtain ⟨k2, d2⟩ := kv
      by_cases hk : k2 = k
      · simp [storeSet, storeGet, hk]
      · simp [storeSet, storeGet, hk, ih]

/-- Two writes to the same key collapse to the last one. -/
theorem storeSet_storeSet (s : Store) (k : String) (a b : SessionData) :
    storeSet (storeSet s k a) k b = storeSet s k b := by
  induction s with
  | nil => simp [storeSet]
  | cons kv rest ih =>
      obtain ⟨k2, d2⟩ := kv
      by_cases hk : k2 = k
      · simp [storeSet, hk]
      · simp [storeSet, hk, ih]

/-- `get_session` in degraded mode: no read, no write, `None`. -/
theorem get_session_degraded {st : SMState} (h : st.redis_active = false)
    (now : ℚ) (sid : String) : get_session st now sid = (none, st) := by
  simp [get_session, h]

/-- `get_session` on a missing key: one read, `None`. -/
theorem get_session_miss {st : SMState} (h : st.redis_active = true)
    (now : ℚ) {sid : String} (hm : storeGet st.store (skey sid) = none) :
    get_session st now sid = (none, { st with redis_calls := st.redis_calls + 1 }) := by
  simp [get_session, h, hm]

/-- `get_session` on a present key: refresh `last_activity`, write the
record back, return it. -/
theorem get_session_hit {st : SMState} (h : st.redis_active = true)
    (now : ℚ) {sid : String} {d : SessionData}
    (hm : storeGet st.store (skey sid) = some d) :
    get_session st now sid =
      (some { d with last_activity := now },
       { st with
           store := storeSet st.store (skey sid) { d with last_activity := now }
           redis_calls := st.redis_calls + 1 + 1 }) := by
  simp [get_session, update_session_raw, h, hm]

/-- `update_session_raw` preserves store-wide validity when handed a
valid record. -/
theorem invOK_upd_raw {st : SMState} (hinv : invOK st = true) (sid : String)
    {d : SessionData} (hd : recOK d = true) :
    invOK (update_session_raw st sid d).2 = true := by
  unfold update_session_raw
  by_cases h : st.redis_active
  · simpa [h, invOK] using all_storeSet hinv (skey sid) hd
  · simpa [h] using hinv

/-- `get_session` preserves store-wide validity (it only refreshes
`last_activity`). -/
theorem invOK_get_session {st : SMState} (hinv : invOK st = true)
    (now : ℚ) (sid : String) : invOK (get_session st now sid).2 = true := by
  by_cases hr : st.redis_active
  · cases hm : storeGet st.store (skey sid) with
    | none => rw [get_session_miss hr now hm]; exact hinv
    | some d =>
        rw [get_session_hit hr now hm]
        have hd := all_storeGet hinv hm
        exact all_storeSet hinv (skey sid) hd
  · rw [get_session_degraded (by simpa using hr) now sid]; exact hinv

/-- The record handed out by a `get_session` hit is valid. -/
theorem recOK_get_session {st : SMState} (hinv : invOK st = true)
    {now : ℚ} {sid : String} {d : SessionData}
    (hg : (get_session st now sid).1 = some d) : recOK d = true := by
  by_cases hr : st.redis_active
  · cases hm : storeGet st.store (skey sid) with
    | none => rw [get_session_miss hr now hm] at hg; cases hg
    | some d0 =>
        rw [get_session_hit hr now hm] at hg
        cases hg
        have hd := all_storeGet hinv hm
        exact hd
  · rw [get_session_degraded (by simpa using hr) now sid] at hg; cases hg

/-- `update_session` preserves store-wide validity whenever the update
function preserves record validity. -/
theorem invOK_update_session {st : SMState} (hinv : invOK st = true)
    (now : ℚ) (sid : String) {f : SessionData → SessionData}
    (hf : ∀ d, recOK d = true → recOK (f d) = true) :
    invOK (update_session st now sid f).2 = true := by
  unfold update_session
  cases hg : get_session st now sid with
  | mk o st1 =>
      have h1 : invOK st1 = true := by
        have := invOK_get_session hinv now sid
        rw [hg] at this; exact this
      cases o with
      | none => exact h1
      | some d =>
          have hd : recOK d = true := by
            have := recOK_get_session hinv (hg ▸ rfl : (get_session st now sid).1 = some d)
            exact this
          exact invOK_upd_raw h1 sid (hf d hd)

/-- Unfolding of the record invariant into usable bounds. -/
theorem recOK_iff {d : SessionData} : recOK d = true ↔
    (0 ≤ d.step_index ∧ d.step_index ≤ d.total_steps ∧
     (∀ i ∈ d.ingredients_spoken,
        0 ≤ i ∧ i < (d.response_structure.ingredients.length : Int)) ∧
     (∀ n ∈ d.steps_spoken, 1 ≤ n ∧ n ≤ d.total_steps) ∧
     (∀ s ∈ d.sections_spoken, validSection s = true)) := by
  simp [recOK, List.all_eq_true, and_assoc]

/-- `navigate_to_step` keeps every stored record valid: the jump is
guarded by `1 ≤ n ≤ total_steps`. -/
theorem invOK_navigate_to_step {st : SMState} (hinv : invOK st = true)
    (now : ℚ) (sid : String) (n : Int) :
    invOK (navigate_to_step st now sid n).2 = true := by
  unfold navigate_to_step
  cases hg : get_session st now sid with
  | mk o st1 =>
      have h1 : invOK st1 = true := by
        have := invOK_get_session hinv now sid; rw [hg] at this; exact this
      cases o with
      | none => exact h1
      | some d =>
          have hd : recOK d = true :=
            recOK_get_session hinv (by rw [hg])
          dsimp only
          by_cases hb : 1 ≤ n ∧ n ≤ d.total_steps
          · rw [if_pos hb]
            refine invOK_upd_raw h1 sid ?_
            rw [recOK_iff] at hd ⊢
            dsimp only
            obtain ⟨_, _, hing, hstep, hsec⟩ := hd
            exact ⟨by omega, by omega, hing, hstep, hsec⟩
          · rw [if_neg hb]; exact h1

/-- `navigate_next` keeps every stored record valid. -/
theorem invOK_navigate_next {st : SMState} (hinv : invOK st = true)
    (now : ℚ) (sid : String) :
    invOK (navigate_next st now sid).2 = true := by
  unfold navigate_next
  cases hg : get_session st now sid with
  | mk o st1 =>
      have h1 : invOK st1 = true := by
        have := invOK_get_session hinv now sid; rw [hg] at this; exact this
      cases o with
      | none => exact h1
      | some d =>
          have hd : recOK d = true := recOK_get_session hinv (by rw [hg])
          dsimp only
          by_cases hb : d.step_index < d.total_steps
          · rw [if_pos hb]
            have hrec : recOK { d with step_index := d.step_index + 1 } = true := by
              rw [recOK_iff] at hd ⊢
              dsimp only
              obtain ⟨h0, h2, hing, hstep, hsec⟩ := hd
              exact ⟨by omega, by omega, hing, hstep, hsec⟩
            cases hu : update_session_raw st1 sid { d with step_index := d.step_index + 1 } with
            | mk b st2 =>
                dsimp only
                have := invOK_upd_raw h1 sid hrec
                rw [hu] at this; exact this
          · rw [if_neg hb]; exact h1

/-- `navigate_prev` keeps every stored record valid. -/
theorem invOK_navigate_prev {st : SMState} (hinv : invOK st = true)
    (now : ℚ) (sid : String) :
    invOK (navigate_prev st now sid).2 = true := by
  unfold navigate_prev
  cases hg : get_session st now sid with
  | mk o st1 =>
      have h1 : invOK st1 = true := by
        have := invOK_get_session hinv now sid; rw [hg] at this; exact this
      cases o with
      | none => exact h1
      | some d =>
          have hd : recOK d = true := recOK_get_session hinv (by rw [hg])
          dsimp only
          by_cases hb : 1 < d.step_index
          · rw [if_pos hb]
            have hrec : recOK { d with step_index := d.step_index - 1 } = true := by
              rw [recOK_iff] at hd ⊢
              dsimp only
              obtain ⟨h0, h2, hing, hstep, hsec⟩ := hd
              exact ⟨by omega, by omega, hing, hstep, hsec⟩
            cases hu : update_session_raw st1 sid { d with step_index := d.step_index - 1 } with
            | mk b st2 =>
                dsimp only
                have := invOK_upd_raw h1 sid hrec
                rw [hu] at this; exact this
          · rw [if_neg hb]; exact h1

/-- `mark_ingredient_spoken` keeps every stored record valid when its
index argument is valid for the targeted record. -/
theorem invOK_mark_ingredient {st : SMState} (hinv : invOK st = true)
    (now : ℚ) (sid : String) (i : Int)
    (hok : opOK st (.markIng sid i) = true) :
    invOK (mark_ingredient_spoken st now sid i).2 = true := by
  unfold mark_ingredient_spoken
  by_cases hr : st.redis_active
  · cases hm : storeGet st.store (skey sid) with
    | none => rw [get_session_miss hr now hm]; exact hinv
    | some d =>
        have h1 : invOK (get_session st now sid).2 = true :=
          invOK_get_session hinv now sid
        have hd : recOK d = true := all_storeGet hinv hm
        rw [get_session_hit hr now hm] at h1 ⊢
        simp only [opOK, hm] at hok
        rw [Bool.and_eq_true, decide_eq_true_eq, decide_eq_true_eq] at hok
        dsimp only
        by_cases hmem : i ∈ d.ingredients_spoken
        · rw [if_pos hmem]; exact h1
        · rw [if_neg hmem]
          refine invOK_upd_raw h1 sid ?_
          rw [recOK_iff] at hd ⊢
          dsimp only
          obtain ⟨h0, h2, hing, hstep, hsec⟩ := hd
          refine ⟨h0, h2, ?_, hstep, hsec⟩
          intro j hj
          rcases List.mem_append.mp hj with hj | hj
          · exact hing j hj
          · simp only [List.mem_singleton] at hj
            subst hj
            exact hok
  · rw [get_session_degraded (by simpa using hr) now sid]; exact hinv

/-- `mark_step_spoken` keeps every stored record valid when its step
argument lies in `[1, total_steps]` of the targeted record. -/
theorem invOK_mark_step {st : SMState} (hinv : invOK st = true)
    (now : ℚ) (sid : String) (n : Int)
    (hok : opOK st (.markStep sid n) = true) :
    invOK (mark_step_spoken st now sid n).2 = true := by
  unfold mark_step_spoken
  by_cases hr : st.redis_active
  · cases hm : storeGet st.store (skey sid) with
    | none => rw [get_session_miss hr now hm]; exact hinv
    | some d =>
        have h1 : invOK (get_session st now sid).2 = true :=
          invOK_get_session hinv now sid
        have hd : recOK d = true := all_storeGet hinv hm
        rw [get_session_hit hr now hm] at h1 ⊢
        simp only [opOK, hm] at hok
        rw [Bool.and_eq_true, decide_eq_true_eq, decide_eq_true_eq] at hok
        dsimp only
        by_cases hmem : n ∈ d.steps_spoken
        · rw [if_pos hmem]; exact h1
        · rw [if_neg hmem]
          refine invOK_upd_raw h1 sid ?_
          rw [recOK_iff] at hd ⊢
          dsimp only
          obtain ⟨h0, h2, hing, hstep, hsec⟩ := hd
          refine ⟨by omega, by omega, hing, ?_, hsec⟩
          intro m hm2
          rcases List.mem_append.mp hm2 with hm2 | hm2
          · exact hstep m hm2
          · simp only [List.mem_singleton] at hm2
            subst hm2
            exact hok
  · rw [get_session_degraded (by simpa using hr) now sid]; exact hinv

/-- `mark_section_spoken` keeps every stored record valid when its name
argument is one of the canonical section names. -/
theorem invOK_mark_section {st : SMState} (hinv : invOK st = true)
    (now : ℚ) (sid : String) (s : String)
    (hok : opOK st (.markSec sid s) = true) :
    invOK (mark_section_spoken st now sid s).2 = true := by
  unfold mark_section_spoken
  by_cases hr : st.redis_active
  · cases hm : storeGet st.store (skey sid) with
    | none => rw [get_session_miss hr now hm]; exact hinv
    | some d =>
        have h1 : invOK (get_session st now sid).2 = true :=
          invOK_get_session hinv now sid
        have hd : recOK d = true := all_storeGet hinv hm
        rw [get_session_hit hr now hm] at h1 ⊢
        simp only [opOK] at hok
        dsimp only
        by_cases hmem : s ∈ d.sections_spoken
        · rw [if_pos hmem]; exact h1
        · rw [if_neg hmem]
          refine invOK_upd_raw h1 sid ?_
          rw [recOK_iff] at hd ⊢
          dsimp only
          obtain ⟨h0, h2, hing, hstep, hsec⟩ := hd
          refine ⟨h0, h2, hing, hstep, ?_⟩
          intro t ht
          rcases List.mem_append.mp ht with ht | ht
          · exact hsec t ht
          · simp only [List.mem_singleton] at ht
            subst ht
            exact hok
  · rw [get_session_degraded (by simpa using hr) now sid]; exact hinv

/-- `add_conversation_turn` keeps every stored record valid (it only
touches the history and `last_intent`). -/
theorem invOK_add_turn {st : SMState} (hinv : invOK st = true)
    (now : ℚ) (sid role content : String) (intent : Option String)
    (entities : Option (List (String × String))) :
    invOK (add_conversation_turn st now sid role content intent entities).2 = true := by
  unfold add_conversation_turn
  cases hg : get_session st now sid with
  | mk o st1 =>
      have h1 : invOK st1 = true := by
        have := invOK_get_session hinv now sid; rw [hg] at this; exact this
      cases o with
      | none => exact h1
      | some d =>
          have hd : recOK d = true := recOK_get_session hinv (by rw [hg])
          dsimp only
          by_cases hcond : role = "user" ∧ intentTruthy intent = true
          · rw [if_pos hcond]
            exact invOK_upd_raw h1 sid hd
          · rw [if_neg hcond]
            exact invOK_upd_raw h1 sid hd

/-- `check_timer` keeps every stored record valid (its only write path
is the auto-clear through `clear_timer`). -/
theorem invOK_check_timer {st : SMState} (hinv : invOK st = true)
    (now : ℚ) (sid : String) :
    invOK (check_timer st now sid).2 = true := by
  unfold check_timer
  cases hg : get_session st now sid with
  | mk o st1 =>
      have h1 : invOK st1 = true := by
        have := invOK_get_session hinv now sid; rw [hg] at this; exact this
      cases o with
      | none => exact h1
      | some d =>
          dsimp only
          cases hta : d.timer_active with
          | false => simp only [Bool.not_false, if_pos]; exact h1
          | true =>
              simp only [Bool.not_true, Bool.false_eq_true, if_false]
              cases hte : d.timer_end_time with
              | none => exact h1
              | some e =>
                  dsimp only
                  by_cases hrem : e - now ≤ 0
                  · rw [if_pos hrem]
                    cases hu : clear_timer st1 now sid with
                    | mk b st2 =>
                        dsimp only
                        have h2 : invOK (clear_timer st1 now sid).2 = true := by
                          unfold clear_timer
                          exact invOK_update_session h1 now sid (fun d h => h)
                        rw [hu] at h2; exact h2
                  · rw [if_neg hrem]; exact h1

/-- `delete_session` keeps the remaining records valid. -/
theorem invOK_delete {st : SMState} (hinv : invOK st = true) (sid : String) :
    invOK (delete_session st sid).2 = true := by
  unfold delete_session
  by_cases hr : st.redis_active
  · simpa [hr, invOK] using all_storeDel hinv (skey sid)
  · simpa [hr] using hinv

/-- `get_next_unspoken_ingredient` keeps every stored record valid. -/
theorem invOK_get_next_ing {st : SMState} (hinv : invOK st = true)
    (now : ℚ) (sid : String) :
    invOK (get_next_unspoken_ingredient st now sid).2 = true := by
  unfold get_next_unspoken_ingredient
  cases hg : get_session st now sid with
  | mk o st1 =>
      have h1 : invOK st1 = true := by
        have := invOK_get_session hinv now sid; rw [hg] at this; exact this
      cases o with
      | none => exact h1
      | some d => exact h1

/-- `get_next_unspoken_step` keeps every stored record valid. -/
theorem invOK_get_next_step {st : SMState} (hinv : invOK st = true)
    (now : ℚ) (sid : String) :
    invOK (get_next_unspoken_step st now sid).2 = true := by
  unfold get_next_unspoken_step
  cases hg : get_session st now sid with
  | mk o st1 =>
      have h1 : invOK st1 = true := by
        have := invOK_get_session hinv now sid; rw [hg] at this; exact this
      cases o with
      | none => exact h1
      | some d => exact h1

/-- Every call of the closed operation set keeps every stored record
valid, provided the (unvalidated) marking arguments are valid for the
record they target. -/
theorem applyOp_inv {st : SMState} (hinv : invOK st = true) (now : ℚ)
    {op : Op} (hok : opOK st op = true) :
    invOK (applyOp st now op) = true := by
  cases op with
  | navNext sid => exact invOK_navigate_next hinv now sid
  | navPrev sid => exact invOK_navigate_prev hinv now sid
  | navTo sid n => exact invOK_navigate_to_step hinv now sid n
  | markIng sid i => exact invOK_mark_ingredient hinv now sid i hok
  | markStep sid n => exact invOK_mark_step hinv now sid n hok
  | markSec sid s => exact invOK_mark_section hinv now sid s hok
  | addTurn sid role content intent entities =>
      exact invOK_add_turn hinv now sid role content intent entities
  | setPauseOp sid b =>
      exact invOK_update_session hinv now sid (fun d h => h)
  | setTimerOp sid dur =>
      exact invOK_update_session hinv now sid (fun d h => h)
  | clearTimerOp sid =>
      exact invOK_update_session hinv now sid (fun d h => h)
  | checkTimerOp sid => exact invOK_check_timer hinv now sid
  | updPlayback sid ci tc pos =>
      exact invOK_update_session hinv now sid (fun d h => h)
  | getSessionOp sid => exact invOK_get_session hinv now sid
  | getNextIngOp sid => exact invOK_get_next_ing hinv now sid
  | getNextStepOp sid => exact invOK_get_next_step hinv now sid
  | deleteOp sid => exact invOK_delete hinv sid

/-- **C2 (counterexample).**  The step-index/spoken-validity invariant
does not survive every operation sequence: starting from a freshly
created session with 3 steps (which satisfies the invariant),
`mark_step_spoken` with the out-of-range step number 100 reports
success, drives `step_index` to 100 ∉ [0, 3] and records 100 in
`steps_spoken` — the source validates neither. -/
theorem c2_counterexample :
    invOK (create_session smInit 0 "s" "r" "t" 3 (some demoRecipe)).2 = true ∧
    (mark_step_spoken (create_session smInit 0 "s" "r" "t" 3 (some demoRecipe)).2
        1 "s" 100).1 = true ∧
    (storeGet (mark_step_spoken (create_session smInit 0 "s" "r" "t" 3
            (some demoRecipe)).2 1 "s" 100).2.store (skey "s")).map
        (fun d => (d.step_index, d.total_steps, d.steps_spoken))
      = some (100, 3, [100]) ∧
    invOK (mark_step_spoken (create_session smInit 0 "s" "r" "t" 3
        (some demoRecipe)).2 1 "s" 100).2 = false := by
  refine ⟨by decide, by decide, by decide, by decide⟩

/-- **C2 (amended).**  For every sequence of `SessionManager`
operations applied to stores whose records satisfy the invariant, the
invariant is preserved — step index within `[0, total_steps]` and
spoken-tracking collections only holding valid values — provided each
`mark_ingredient_spoken` / `mark_step_spoken` / `mark_section_spoken`
argument is itself valid for the record it targets (the marking calls
perform no validation of their own; navigation and all other
operations need no side condition). -/
theorem c2_invariant_sequences (st : SMState) (ops : List (ℚ × Op))
    (hinv : invOK st = true) (hops : opsOK st ops = true) :
    invOK (applyOps st ops) = true := by
  induction ops generalizing st with
  | nil => simpa [applyOps] using hinv
  | cons p rest ih =>
      obtain ⟨t, op⟩ := p
      simp only [opsOK, Bool.and_eq_true] at hops
      exact ih (applyOp st t op) (applyOp_inv hinv t hops.1) hops.2

/-- Witness for `c2_invariant_sequences`: a freshly created 3-step
session, driven through navigation, valid marking, history, pause,
timer-clearing, playback and read operations. -/
theorem c2_invariant_sequences_witness :
    (invOK (create_session smInit 0 "s" "r" "t" 3 (some demoRecipe)).2 = true ∧
     opsOK (create_session smInit 0 "s" "r" "t" 3 (some demoRecipe)).2
       [((1 : ℚ), Op.markSec "s" "greeting"), ((2 : ℚ), Op.markIng "s" 0),
        ((3 : ℚ), Op.navNext "s"),
        ((3 : ℚ), Op.markStep "s" 1), ((4 : ℚ), Op.navNext "s"),
        ((5 : ℚ), Op.navPrev "s"), ((6 : ℚ), Op.navTo "s" 3),
        ((7 : ℚ), Op.addTurn "s" "user" "next step" (some "nav_next") none),
        ((8 : ℚ), Op.checkTimerOp "s"), ((9 : ℚ), Op.setPauseOp "s" true),
        ((10 : ℚ), Op.clearTimerOp "s"), ((11 : ℚ), Op.updPlayback "s" 2 5 150),
        ((12 : ℚ), Op.getSessionOp "s"), ((13 : ℚ), Op.getNextIngOp "s"),
        ((14 : ℚ), Op.getNextStepOp "s")] = true) ∧
    invOK (applyOps (create_session smInit 0 "s" "r" "t" 3 (some demoRecipe)).2
       [((1 : ℚ), Op.markSec "s" "greeting"), ((2 : ℚ), Op.markIng "s" 0),
        ((3 : ℚ), Op.navNext "s"),
        ((3 : ℚ), Op.markStep "s" 1), ((4 : ℚ), Op.navNext "s"),
        ((5 : ℚ), Op.navPrev "s"), ((6 : ℚ), Op.navTo "s" 3),
        ((7 : ℚ), Op.addTurn "s" "user" "next step" (some "nav_next") none),
        ((8 : ℚ), Op.checkTimerOp "s"), ((9 : ℚ), Op.setPauseOp "s" true),
        ((10 : ℚ), Op.clearTimerOp "s"), ((11 : ℚ), Op.updPlayback "s" 2 5 150),
        ((12 : ℚ), Op.getSessionOp "s"), ((13 : ℚ), Op.getNextIngOp "s"),
        ((14 : ℚ), Op.getNextStepOp "s")]) = true :=
  ⟨⟨by decide, by decide⟩,
   c2_invariant_sequences _ _ (by decide) (by decide)⟩

/-- **C3 (counterexample).**  `create_session` with the negative step
count −5 does not fail: it writes a record with `total_steps = -5` and
returns it; `set_timer` with the negative duration −10 does not reject:
it reports success and mutates the session to an active timer with
`timer_duration = -10`. -/
theorem c3_counterexample :
    (create_session smInit 0 "s" "r" "t" (-5) none).1.total_steps = -5 ∧
    storeGet (create_session smInit 0 "s" "r" "t" (-5) none).2.store (skey "s")
      = some (create_session smInit 0 "s" "r" "t" (-5) none).1 ∧
    (set_timer (create_session smInit 0 "s" "r" "t" (-5) none).2 1 "s" (-10)).1 = true ∧
    (storeGet (set_timer (create_session smInit 0 "s" "r" "t" (-5) none).2
          1 "s" (-10)).2.store (skey "s")).map
        (fun d => (d.timer_active, d.timer_duration))
      = some (true, -10) := by
  refine ⟨by decide, by decide, by decide, by decide⟩

/-- Behavior of `get_session` on a state whose store was just written
at the session's key: the record is returned with `last_activity`
refreshed and written back. -/
theorem get_session_postwrite (st : SMState) (s0 : Store) (n : Nat) (now : ℚ)
    (sid : String) (d : SessionData) (hact : st.redis_active = true) :
    get_session { st with store := storeSet s0 (skey sid) d
                          redis_calls := n } now sid
      = (some { d with last_activity := now },
         { st with store := storeSet s0 (skey sid) { d with last_activity := now }
                   redis_calls := n + 1 + 1 }) := by
  have hact2 : ({ st with store := storeSet s0 (skey sid) d
                          redis_calls := n } : SMState).redis_active = true := hact
  rw [get_session_hit hact2 now (storeGet_set_self s0 (skey sid) d)]
  rw [storeSet_storeSet]

/-- **C3 (amended).**  Neither boundary validates: `create_session`
accepts every integer step count (negative included), always
constructing the record and writing it whenever the store is
reachable; `set_timer` accepts every integer duration (negative
included), reporting success and storing an active timer whose expiry
is `now + duration`. -/
theorem c3_no_validation (st : SMState) (now now2 : ℚ) (sid rid title : String)
    (ts dur : Int) (rdata : Option RecipeData) (hact : st.redis_active = true) :
    (create_session st now sid rid title ts rdata).1.total_steps = ts ∧
    storeGet (create_session st now sid rid title ts rdata).2.store (skey sid)
      = some (create_session st now sid rid title ts rdata).1 ∧
    (set_timer (create_session st now sid rid title ts rdata).2 now2 sid dur).1 = true ∧
    (storeGet (set_timer (create_session st now sid rid title ts rdata).2
          now2 sid dur).2.store (skey sid)).map
        (fun d => (d.timer_active, d.timer_end_time, d.timer_duration))
      = some (true, some (now2 + (dur : ℚ)), dur) := by
  refine ⟨?_, ?_, ?_, ?_⟩
  · simp [create_session, hact]
  · simp only [create_session, if_pos hact]
    exact storeGet_set_self _ _ _
  · simp only [set_timer, update_session, create_session, if_pos hact]
    rw [get_session_postwrite st st.store (st.redis_calls + 1) now2 sid _ hact]
    simp [update_session_raw, hact]
  · simp only [set_timer, update_session, create_session, if_pos hact]
    rw [get_session_postwrite st st.store (st.redis_calls + 1) now2 sid _ hact]
    simp only [update_session_raw, hact, if_pos]
    rw [storeSet_storeSet, storeGet_set_self]
    rfl

/-- Witness for `c3_no_validation` at the concrete negative inputs
`total_steps = -5`, `duration = -10`. -/
theorem c3_no_validation_witness :
    smInit.redis_active = true ∧
    ((create_session smInit 0 "s" "r" "t" (-5) none).1.total_steps = -5 ∧
     storeGet (create_session smInit 0 "s" "r" "t" (-5) none).2.store (skey "s")
       = some (create_session smInit 0 "s" "r" "t" (-5) none).1 ∧
     (set_timer (create_session smInit 0 "s" "r" "t" (-5) none).2 1 "s" (-10)).1 = true ∧
     (storeGet (set_timer (create_session smInit 0 "s" "r" "t" (-5) none).2
           1 "s" (-10)).2.store (skey "s")).map
         (fun d => (d.timer_active, d.timer_end_time, d.timer_duration))
       = some (true, some ((1 : ℚ) + ((-10 : Int) : ℚ)), -10)) :=
  ⟨rfl, c3_no_validation smInit 0 1 "s" "r" "t" (-5) (-10) none rfl⟩

/-- **C4 (counterexample).**  In degraded mode `create_session` does
not return a failure indicator: it returns the very same fully
populated session record a reachable-store creation returns (state
`RECIPE_SELECTED`), merely skipping persistence — the claim that every
degraded-mode `create` reports failure is false. -/
theorem c4_counterexample :
    (create_session smDegraded 0 "s" "r" "t" 3 none).1
      = (create_session smInit 0 "s" "r" "t" 3 none).1 ∧
    (create_session smDegraded 0 "s" "r" "t" 3 none).1.current_state
      = "RECIPE_SELECTED" ∧
    (create_session smDegraded 0 "s" "r" "t" 3 none).2 = smDegraded := by
  refine ⟨by decide, by decide, by decide⟩

/-- **C4 (amended).**  Once the store is degraded, `get_session`
returns `None` and `update_session` returns `False`, neither raising
nor attempting any backing-store command (the state — including the
ghost `redis_calls` counter — is returned unchanged); `create_session`
likewise attempts no backing-store command and does not raise, but
instead of a failure indicator it returns the constructed, unpersisted
session record. -/
theorem c4_degraded_ops (st : SMState) (now : ℚ) (sid rid title : String)
    (ts : Int) (rdata : Option RecipeData) (f : SessionData → SessionData)
    (hdeg : st.redis_active = false) :
    get_session st now sid = (none, st) ∧
    update_session st now sid f = (false, st) ∧
    (create_session st now sid rid title ts rdata).2 = st ∧
    (create_session st now sid rid title ts rdata).1.session_id = sid := by
  refine ⟨get_session_degraded hdeg now sid, ?_, ?_, ?_⟩
  · unfold update_session
    rw [get_session_degraded hdeg now sid]
  · simp [create_session, hdeg]
  · simp [create_session, hdeg]

/-- Witness for `c4_degraded_ops` on the degraded fresh manager. -/
theorem c4_degraded_ops_witness :
    smDegraded.redis_active = false ∧
    (get_session smDegraded 0 "s" = (none, smDegraded) ∧
     update_session smDegraded 0 "s" (fun d => d) = (false, smDegraded) ∧
     (create_session smDegraded 0 "s" "r" "t" 3 none).2 = smDegraded ∧
     (create_session smDegraded 0 "s" "r" "t" 3 none).1.session_id = "s") :=
  ⟨rfl, c4_degraded_ops smDegraded 0 "s" "r" "t" 3 none (fun d => d) rfl⟩

/-- `update_session_raw` does not change the degraded flag. -/
theorem redis_active_upd_raw (st : SMState) (sid : String) (d : SessionData) :
    (update_session_raw st sid d).2.redis_active = st.redis_active := by
  unfold update_session_raw
  split <;> rfl

/-- `update_session` on a present key with a reachable store: one read
(which refreshes `last_activity`), the field update, one write. -/
theorem update_session_hit {st : SMState} (hact : st.redis_active = true)
    (now : ℚ) {sid : String} {d : SessionData}
    (hm : storeGet st.store (skey sid) = some d) (f : SessionData → SessionData) :
    update_session st now sid f =
      (true,
       { st with
           store := storeSet st.store (skey sid)
             { f { d with last_activity := now } with last_activity := now }
           redis_calls := st.redis_calls + 1 + 1 + 1 }) := by
  unfold update_session
  rw [get_session_hit hact now hm]
  dsimp only
  unfold update_session_raw
  simp only [hact, if_pos]
  rw [storeSet_storeSet]

/-- Behavior of `clear_timer` on a state whose store was just written
at the session's key: success, and the record's timer fields reset. -/
theorem clear_timer_postwrite (st : SMState) (s0 : Store) (n : Nat) (now : ℚ)
    (sid : String) (d : SessionData) (hact : st.redis_active = true) :
    clear_timer { st with store := storeSet s0 (skey sid) d
                          redis_calls := n } now sid
      = (true,
         { st with
             store := storeSet s0 (skey sid)
               { d with last_activity := now, timer_active := false,
                        timer_end_time := none, timer_duration := 0 }
             redis_calls := n + 1 + 1 + 1 }) := by
  have hact2 : ({ st with store := storeSet s0 (skey sid) d
                          redis_calls := n } : SMState).redis_active = true := hact
  unfold clear_timer
  rw [update_session_hit hact2 now (storeGet_set_self s0 (skey sid) d)]
  rw [storeSet_storeSet]

/-- Behavior of `check_timer` on a just-written record whose timer is
inactive: `{active: false, remaining: 0, expired: false}`. -/
theorem check_timer_postwrite_inactive (st : SMState) (s0 : Store) (n : Nat)
    (now : ℚ) (sid : String) (d : SessionData) (hact : st.redis_active = true)
    (hta : d.timer_active = false) :
    (check_timer { st with store := storeSet s0 (skey sid) d
                           redis_calls := n } now sid).1 = ⟨false, 0, false⟩ := by
  have hact2 : ({ st with store := storeSet s0 (skey sid) d
                          redis_calls := n } : SMState).redis_active = true := hact
  unfold check_timer
  rw [get_session_hit hact2 now (storeGet_set_self s0 (skey sid) d)]
  simp [hta]

/-- **C5.**  For every session with an active timer expiring at `e`:
a `check_timer` at an instant with `e - now ≤ 0` reports
`{active: false, expired: true}` and auto-clears the timer, so a
second `check_timer` at any later instant reports
`{active: false, expired: false}`; a `check_timer` before expiry
reports active with the remaining seconds rounded down to whole
seconds (`⌊e - now⌋`, which is what Python's `int()` truncation yields
for the positive remainder) and leaves the timer set. -/
theorem c5_check_timer (st : SMState) (now now2 : ℚ) (sid : String)
    (d : SessionData) (e : ℚ)
    (hact : st.redis_active = true)
    (hm : storeGet st.store (skey sid) = some d)
    (hta : d.timer_active = true)
    (hte : d.timer_end_time = some e) :
    (e - now ≤ 0 →
       (check_timer st now sid).1 = ⟨false, 0, true⟩ ∧
       (check_timer (check_timer st now sid).2 now2 sid).1 = ⟨false, 0, false⟩) ∧
    (0 < e - now →
       (check_timer st now sid).1 = ⟨true, ⌊e - now⌋, false⟩ ∧
       (storeGet (check_timer st now sid).2.store (skey sid)).map
           (fun x => (x.timer_active, x.timer_end_time, x.timer_duration))
         = some (true, some e, d.timer_duration)) := by
  constructor
  · intro hrem
    have hchk : check_timer st now sid =
        (⟨false, 0, true⟩,
         { st with
             store := storeSet st.store (skey sid)
               { d with last_activity := now, timer_active := false,
                        timer_end_time := none, timer_duration := 0 }
             redis_calls := st.redis_calls + 1 + 1 + 1 + 1 + 1 }) := by
      simp only [check_timer]
      rw [get_session_hit hact now hm]
      simp only [hta, Bool.not_true, Bool.false_eq_true, if_false, hte]
      rw [if_pos hrem]
      rw [clear_timer_postwrite st st.store (st.redis_calls + 1 + 1) now sid _ hact]
    refine ⟨by rw [hchk], ?_⟩
    rw [hchk]
    exact check_timer_postwrite_inactive st st.store _ now2 sid _ hact rfl
  · intro hpos
    have hrem : ¬ (e - now ≤ 0) := not_le.mpr hpos
    have hchk : check_timer st now sid =
        (⟨true, pyInt (e - now), false⟩,
         { st with
             store := storeSet st.store (skey sid)
               { d with last_activity := now }
             redis_calls := st.redis_calls + 1 + 1 }) := by
      simp only [check_timer]
      rw [get_session_hit hact now hm]
      simp only [hta, Bool.not_true, Bool.false_eq_true, if_false, hte]
      rw [if_neg hrem]
    constructor
    · rw [hchk]
      have hint : pyInt (e - now) = ⌊e - now⌋ := by
        unfold pyInt
        rw [if_pos (le_of_lt hpos)]
      dsimp only
      rw [hint]
    · rw [hchk]
      dsimp only
      rw [storeGet_set_self]
      simp [hta, hte]

/-- Witness for `c5_check_timer`: a 30-second timer set at instant 0 on
a fresh 3-step session; checked exactly at its expiry instant it
reports expired once and auto-clears, and a subsequent check at
instant 1 reports neither active nor expired. -/
theorem c5_check_timer_witness :
    (set_timer (create_session smInit 0 "s" "r" "t" 3 none).2 0 "s" 30).2.redis_active
      = true ∧
    ((check_timer (set_timer (create_session smInit 0 "s" "r" "t" 3 none).2
         0 "s" 30).2 ((0 : ℚ) + ((30 : Int) : ℚ)) "s").1 = ⟨false, 0, true⟩ ∧
     (check_timer (check_timer (set_timer (create_session smInit 0 "s" "r" "t" 3 none).2
         0 "s" 30).2 ((0 : ℚ) + ((30 : Int) : ℚ)) "s").2 1 "s").1 = ⟨false, 0, false⟩) :=
  ⟨rfl,
   (c5_check_timer
      (set_timer (create_session smInit 0 "s" "r" "t" 3 none).2 0 "s" 30).2
      ((0 : ℚ) + ((30 : Int) : ℚ)) 1 "s"
      ((storeGet (set_timer (create_session smInit 0 "s" "r" "t" 3 none).2
          0 "s" 30).2.store (skey "s")).getD
        (create_session smInit 0 "s" "r" "t" 3 none).1)
      ((0 : ℚ) + ((30 : Int) : ℚ))
      rfl rfl rfl rfl).1 (by simp)⟩

/-- **C6 (counterexample).**  Marking an already-present step does not
update the step index: on a 5-step session where step 2 was marked and
navigation then moved to step 5, a second `mark_step_spoken` of step 2
reports success and leaves the collection at `[2]` (idempotent), but
`step_index` stays 5 instead of moving to 2 — refuting the claim that
every `mark_step_spoken` call updates the step index to the marked
number. -/
theorem c6_counterexample :
    (mark_step_spoken (navigate_next (navigate_next (navigate_next
        (mark_step_spoken (create_session smInit 0 "s" "r" "t" 5 none).2
          1 "s" 2).2 2 "s").2 3 "s").2 4 "s").2 5 "s" 2).1 = true ∧
    (storeGet (mark_step_spoken (navigate_next (navigate_next (navigate_next
        (mark_step_spoken (create_session smInit 0 "s" "r" "t" 5 none).2
          1 "s" 2).2 2 "s").2 3 "s").2 4 "s").2 5 "s" 2).2.store
        (skey "s")).map (fun d => (d.step_index, d.steps_spoken))
      = some (5, [2]) := by
  refine ⟨by decide, by decide⟩

/-- **C6 (amended).**  The marking operations are idempotent: a call
with an already-present value reports success and changes nothing but
the read-refreshed `last_activity` (so the collection's size is
unchanged and, in particular, `mark_step_spoken` does *not* move the
step index).  Only a first-time `mark_step_spoken` appends the step
number and additionally updates the step index to it. -/
theorem c6_mark_idempotent (st : SMState) (now : ℚ) (sid : String)
    (iv n : Int) (sec : String) (d : SessionData)
    (hact : st.redis_active = true)
    (hm : storeGet st.store (skey sid) = some d) :
    (iv ∈ d.ingredients_spoken →
       mark_ingredient_spoken st now sid iv =
         (true, { st with
                    store := storeSet st.store (skey sid) { d with last_activity := now }
                    redis_calls := st.redis_calls + 1 + 1 })) ∧
    (n ∈ d.steps_spoken →
       mark_step_spoken st now sid n =
         (true, { st with
                    store := storeSet st.store (skey sid) { d with last_activity := now }
                    redis_calls := st.redis_calls + 1 + 1 })) ∧
    (sec ∈ d.sections_spoken →
       mark_section_spoken st now sid sec =
         (true, { st with
                    store := storeSet st.store (skey sid) { d with last_activity := now }
                    redis_calls := st.redis_calls + 1 + 1 })) ∧
    (n ∉ d.steps_spoken →
       mark_step_spoken st now sid n =
         (true, { st with
                    store := storeSet st.store (skey sid)
                      { d with last_activity := now
                               steps_spoken := d.steps_spoken ++ [n]
                               step_index := n }
                    redis_calls := st.redis_calls + 1 + 1 + 1 })) := by
  refine ⟨?_, ?_, ?_, ?_⟩
  · intro hmem
    unfold mark_ingredient_spoken
    rw [get_session_hit hact now hm]
    dsimp only
    rw [if_pos hmem]
  · intro hmem
    unfold mark_step_spoken
    rw [get_session_hit hact now hm]
    dsimp only
    rw [if_pos hmem]
  · intro hmem
    unfold mark_section_spoken
    rw [get_session_hit hact now hm]
    dsimp only
    rw [if_pos hmem]
  · intro hmem
    unfold mark_step_spoken
    rw [get_session_hit hact now hm]
    dsimp only
    rw [if_neg hmem]
    unfold update_session_raw
    simp only [hact, if_pos]
    rw [storeSet_storeSet]

/-- Witness for `c6_mark_idempotent`: a 5-step session with step 2
already marked; re-marking step 2 reports success and only refreshes
`last_activity`. -/
theorem c6_mark_idempotent_witness :
    (mark_step_spoken (create_session smInit 0 "s" "r" "t" 5 none).2 1 "s" 2).2.redis_active
      = true ∧
    (2 : Int) ∈ ((storeGet (mark_step_spoken (create_session smInit 0 "s" "r" "t" 5
        none).2 1 "s" 2).2.store (skey "s")).getD
        (create_session smInit 0 "s" "r" "t" 5 none).1).steps_spoken ∧
    mark_step_spoken (mark_step_spoken (create_session smInit 0 "s" "r" "t" 5 none).2
        1 "s" 2).2 9 "s" 2 =
      (true,
       { (mark_step_spoken (create_session smInit 0 "s" "r" "t" 5 none).2 1 "s" 2).2 with
           store := storeSet (mark_step_spoken (create_session smInit 0 "s" "r" "t" 5
               none).2 1 "s" 2).2.store (skey "s")
             { ((storeGet (mark_step_spoken (create_session smInit 0 "s" "r" "t" 5
                   none).2 1 "s" 2).2.store (skey "s")).getD
                 (create_session smInit 0 "s" "r" "t" 5 none).1) with
                 last_activity := 9 }
           redis_calls := (mark_step_spoken (create_session smInit 0 "s" "r" "t" 5
               none).2 1 "s" 2).2.redis_calls + 1 + 1 }) :=
  ⟨rfl, by decide,
   (c6_mark_idempotent (mark_step_spoken (create_session smInit 0 "s" "r" "t" 5
        none).2 1 "s" 2).2 9 "s" 0 2 "x"
      ((storeGet (mark_step_spoken (create_session smInit 0 "s" "r" "t" 5
          none).2 1 "s" 2).2.store (skey "s")).getD
        (create_session smInit 0 "s" "r" "t" 5 none).1)
      rfl rfl).2.1 (by decide)⟩

/-- **C7.**  `add_conversation_turn` on an existing session (with the
constructor's history limit 10, so a 20-entry cap) reports success and
stores: the appended history, trimmed from the oldest end when it
exceeds 20 entries — so the stored length never exceeds 20, and
appending to a full 20-entry history drops exactly the oldest turn
while preserving the order of the rest — and a `last_intent` that is
updated only for user-role turns carrying a truthy (non-empty)
intent. -/
theorem c7_history_cap (st : SMState) (now : ℚ) (sid role content : String)
    (intent : Option String) (entities : Option (List (String × String)))
    (d : SessionData)
    (hact : st.redis_active = true)
    (hm : storeGet st.store (skey sid) = some d)
    (hlim : st.default_history_limit = 10) :
    (add_conversation_turn st now sid role content intent entities).1 = true ∧
    (storeGet (add_conversation_turn st now sid role content intent
          entities).2.store (skey sid)).map
        (fun x => (x.conversation_history, x.last_intent))
      = some
          ((if 20 < d.conversation_history.length + 1
            then pyTailSlice (d.conversation_history
                   ++ [⟨role, content, now, intent, entities.getD []⟩]) 20
            else d.conversation_history
                   ++ [⟨role, content, now, intent, entities.getD []⟩]),
           (if role = "user" ∧ intentTruthy intent = true
            then intent.getD "" else d.last_intent)) ∧
    (∀ x, storeGet (add_conversation_turn st now sid role content intent
            entities).2.store (skey sid) = some x →
       x.conversation_history.length ≤ 20 ∧
       (d.conversation_history.length = 20 →
          x.conversation_history = d.conversation_history.drop 1
            ++ [⟨role, content, now, intent, entities.getD []⟩])) := by
  have hadd : add_conversation_turn st now sid role content intent entities =
      (true,
       { st with
           store := storeSet st.store (skey sid)
             (if role = "user" ∧ intentTruthy intent = true then
               { d with
                   last_activity := now
                   conversation_history :=
                     (if 20 < d.conversation_history.length + 1
                      then pyTailSlice (d.conversation_history
                             ++ [⟨role, content, now, intent, entities.getD []⟩]) 20
                      else d.conversation_history
                             ++ [⟨role, content, now, intent, entities.getD []⟩])
                   last_intent := intent.getD "" }
              else
               { d with
                   last_activity := now
                   conversation_history :=
                     (if 20 < d.conversation_history.length + 1
                      then pyTailSlice (d.conversation_history
                             ++ [⟨role, content, now, intent, entities.getD []⟩]) 20
                      else d.conversation_history
                             ++ [⟨role, content, now, intent, entities.getD []⟩]) })
           redis_calls := st.redis_calls + 1 + 1 + 1 }) := by
    unfold add_conversation_turn
    rw [get_session_hit hact now hm]
    dsimp only
    simp only [hlim]
    unfold update_session_raw
    simp only [hact, if_pos]
    rw [storeSet_storeSet]
    norm_num
  refine ⟨by rw [hadd], ?_, ?_⟩
  · rw [hadd]
    dsimp only
    rw [storeGet_set_self]
    by_cases hc : role = "user" ∧ intentTruthy intent = true
    · simp [hc]
    · simp [hc]
  · intro x hx
    rw [hadd] at hx
    dsimp only at hx
    rw [storeGet_set_self] at hx
    have hxe := (Option.some.inj hx).symm
    have hhist : x.conversation_history =
        (if 20 < d.conversation_history.length + 1
         then pyTailSlice (d.conversation_history
                ++ [⟨role, content, now, intent, entities.getD []⟩]) 20
         else d.conversation_history
                ++ [⟨role, content, now, intent, entities.getD []⟩]) := by
      rw [hxe]
      by_cases hc : role = "user" ∧ intentTruthy intent = true
      · simp [hc]
      · simp [hc]
    constructor
    · rw [hhist]
      by_cases hlen : 20 < d.conversation_history.length + 1
      · rw [if_pos hlen, pyTailSlice, if_neg (by omega : ¬ (20 : Nat) = 0)]
        simp only [List.length_drop, List.length_append, List.length_singleton]
        omega
      · rw [if_neg hlen]
        simp only [List.length_append, List.length_singleton]
        omega
    · intro h20
      rw [hhist, if_pos (by omega), pyTailSlice]
      rw [if_neg (by omega : ¬ (20 : Nat) = 0)]
      simp only [List.length_append, List.length_singleton, h20]
      rw [show (20 + 1 - 20 : Nat) = 1 by omega]
      exact List.drop_append_of_le_length (by omega)

/-- Witness for `c7_history_cap`: a fresh 3-step session receiving a
user turn with intent `small_talk`. -/
theorem c7_history_cap_witness :
    (create_session smInit 0 "s" "r" "t" 3 none).2.redis_active = true ∧
    storeGet (create_session smInit 0 "s" "r" "t" 3 none).2.store (skey "s")
      = some (create_session smInit 0 "s" "r" "t" 3 none).1 ∧
    (create_session smInit 0 "s" "r" "t" 3 none).2.default_history_limit = 10 ∧
    (add_conversation_turn (create_session smInit 0 "s" "r" "t" 3 none).2
        1 "s" "user" "hi" (some "small_talk") none).1 = true :=
  ⟨rfl, by decide, rfl,
   (c7_history_cap (create_session smInit 0 "s" "r" "t" 3 none).2 1 "s" "user" "hi"
      (some "small_talk") none (create_session smInit 0 "s" "r" "t" 3 none).1
      rfl (by decide) rfl).1⟩

/-- A `dropWhile` whose first element fails the predicate is the
identity. -/
theorem dropWhile_eq_self_of_head {p : Char → Bool} {l : List Char}
    (h : ∀ c, l.head? = some c → p c = false) : l.dropWhile p = l := by
  cases l with
  | nil => rfl
  | cons c t => simp [List.dropWhile_cons, h c rfl]

/-- Python `strip()` of a string with non-whitespace ends. -/
theorem pyStrip_eq_self {l : List Char}
    (h1 : ∀ c, l.head? = some c → pyIsSpace c = false)
    (h2 : ∀ c, l.getLast? = some c → pyIsSpace c = false) : pyStrip l = l := by
  unfold pyStrip
  rw [dropWhile_eq_self_of_head h1]
  rw [dropWhile_eq_self_of_head (fun c hc => h2 c ((List.head?_reverse l) ▸ hc))]
  exact List.reverse_reverse l

/-- Python `strip()` eats a leading whitespace character. -/
theorem pyStrip_cons_space (c : Char) (l : List Char) (h : pyIsSpace c = true) :
    pyStrip (c :: l) = pyStrip l := by
  unfold pyStrip
  rw [List.dropWhile_cons, if_pos h]

/-- Python `strip()` eats a trailing whitespace character. -/
theorem pyStrip_append_space (l : List Char) (c : Char) (h : pyIsSpace c = true) :
    pyStrip (l ++ [c]) = pyStrip l := by
  unfold pyStrip
  rw [List.dropWhile_append]
  cases he : (l.dropWhile pyIsSpace).isEmpty with
  | true =>
      simp only [if_pos]
      rw [List.dropWhile_cons]
      simp only [h, if_pos]
      simp [List.isEmpty_iff.mp he]
  | false =>
      simp only [Bool.false_eq_true, if_false]
      rw [List.reverse_append]
      simp only [List.reverse_cons, List.reverse_nil, List.nil_append,
        List.singleton_append]
      rw [List.dropWhile_cons, if_pos h]

/-- The find scan answers its start index when the needle already
matches there. -/
theorem pyFindAux_of_isPrefixOf {needle l : List Char}
    (h : needle.isPrefixOf l = true) (hl : l ≠ []) (i : Nat) :
    pyFindAux needle l i = some i := by
  cases l with
  | nil => exact absurd rfl hl
  | cons c t => simp [pyFindAux, h]

/-- The first three-backtick occurrence after a backtick-free stretch
sits right after that stretch. -/
theorem pyFindAux_ticks (l : List Char) (hb : ∀ c ∈ l, c ≠ backtick)
    (t : List Char) (i : Nat) :
    pyFindAux fenceTicks (l ++ fenceTicks ++ t) i = some (i + l.length) := by
  induction l generalizing i with
  | nil =>
      simp only [List.nil_append]
      have hp : fenceTicks.isPrefixOf (fenceTicks ++ t) = true := by
        rw [List.isPrefixOf_iff_prefix]
        exact List.prefix_append fenceTicks t
      have hne : fenceTicks ++ t ≠ [] := by simp [fenceTicks, tl]
      rw [pyFindAux_of_isPrefixOf hp hne i]
      simp
  | cons c l ih =>
      have hcb : c ≠ backtick := hb c (List.mem_cons_self c l)
      have hbc : (backtick == c) = false := beq_eq_false_iff_ne.mpr (Ne.symm hcb)
      have hft : fenceTicks = backtick :: backtick :: backtick :: [] := by decide
      have hnp : fenceTicks.isPrefixOf (c :: (l ++ fenceTicks ++ t)) = false := by
        rw [hft]
        simp [List.isPrefixOf, hbc]
      simp only [List.cons_append]
      rw [show pyFindAux fenceTicks (c :: (l ++ fenceTicks ++ t)) i
            = if fenceTicks.isPrefixOf (c :: (l ++ fenceTicks ++ t)) then some i
              else pyFindAux fenceTicks (l ++ fenceTicks ++ t) (i + 1) from rfl]
      rw [hnp]
      simp only [Bool.false_eq_true, if_false]
      rw [ih (fun x hx => hb x (List.mem_cons_of_mem c hx)) (i + 1)]
      congr 1
      simp only [List.length_cons]
      omega

/-- A fenced answer is already stripped (its ends are backticks). -/
theorem pyStrip_fencedAnswer (body : List Char) :
    pyStrip (fencedAnswer body) = fencedAnswer body := by
  have hft : fenceTicks = [backtick, backtick, backtick] := by decide
  refine pyStrip_eq_self ?_ ?_
  · intro c hc
    have hfj2 : fenceJson
        = backtick :: backtick :: backtick :: 'j' :: 's' :: 'o' :: 'n' :: [] := by
      decide
    rw [show fencedAnswer body
          = fenceJson ++ (('\n' :: body) ++ ('\n' :: fenceTicks)) from rfl, hfj2] at hc
    simp only [List.cons_append, List.head?_cons, Option.some.injEq] at hc
    cases hc
    decide
  · intro c hc
    have hlast : (fencedAnswer body).getLast? = some backtick := by
      rw [show fencedAnswer body
            = (fenceJson ++ ('\n' :: body ++ ['\n', backtick, backtick])) ++ [backtick]
          by simp [fencedAnswer, hft]]
      exact List.getLast?_concat _
    rw [hlast] at hc
    cases hc
    decide

/-- Markdown fence removal on a fenced body with no stray backticks
yields exactly the stripped body: the `find`-and-slice arithmetic of
`_llm_classify` recovers the inside of the fence. -/
theorem stripFencing_fenced (body : List Char) (hb : ∀ c ∈ body, c ≠ backtick) :
    stripFencing (fencedAnswer body) = pyStrip body := by
  have hR : fencedAnswer body
      = fenceJson ++ (('\n' :: body) ++ ('\n' :: fenceTicks)) := rfl
  have hne : fencedAnswer body ≠ [] := by
    rw [hR]
    simp [fenceJson, tl]
  have hp : fenceJson.isPrefixOf (fencedAnswer body) = true := by
    rw [hR, List.isPrefixOf_iff_prefix]
    exact List.prefix_append _ _
  have hfind0 : pyFind (fencedAnswer body) fenceJson = 0 := by
    unfold pyFind
    rw [pyFindAux_of_isPrefixOf hp hne 0]
    rfl
  have hcont : pyContains (fencedAnswer body) fenceJson = true := by
    unfold pyContains
    rw [hfind0]
    rfl
  have hb2 : ∀ c ∈ ('\n' :: body) ++ ['\n'], c ≠ backtick := by
    intro c hc
    rcases List.mem_append.mp hc with hc | hc
    · rcases List.mem_cons.mp hc with hc | hc
      · subst hc; decide
      · exact hb c hc
    · simp only [List.mem_singleton] at hc
      subst hc; decide
  have hsplit : ('\n' :: body) ++ ('\n' :: fenceTicks)
      = (('\n' :: body) ++ ['\n']) ++ fenceTicks ++ [] := by simp
  have hdrop : (fencedAnswer body).drop 7 = ('\n' :: body) ++ ('\n' :: fenceTicks) := by
    rw [hR, show (7 : Nat) = fenceJson.length from rfl]
    exact List.drop_left _ _
  have hfrom : pyFindFrom (fencedAnswer body) fenceTicks 7
      = ((7 + (body.length + 2) : Nat) : Int) := by
    unfold pyFindFrom
    rw [hdrop, hsplit, pyFindAux_ticks _ hb2 _ 7]
    simp only [List.length_append, List.length_cons, List.length_singleton,
      List.length_nil]
  have hlen : (fencedAnswer body).length = body.length + 12 := by
    rw [hR]
    simp [fenceJson, fenceTicks, tl]
  have hslice : pySlice (fencedAnswer body) 7 ((7 + (body.length + 2) : Nat) : Int)
      = ('\n' :: body) ++ ['\n'] := by
    unfold pySlice
    rw [hlen, hdrop]
    dsimp only
    rw [if_neg (by omega : ¬ (((7 + (body.length + 2) : Nat) : Int) < 0))]
    rw [min_eq_left (by omega :
      ((7 + (body.length + 2) : Nat) : Int) ≤ ((body.length + 12 : Nat) : Int))]
    rw [if_pos (by omega :
      (((7 : Nat) : Int)) ≤ ((7 + (body.length + 2) : Nat) : Int))]
    rw [show ((((7 + (body.length + 2) : Nat) : Int)) - ((7 : Nat) : Int)).toNat
          = ('\n' :: body ++ ['\n']).length by simp; omega]
    rw [show '\n' :: body ++ '\n' :: fenceTicks
          = ('\n' :: body ++ ['\n']) ++ fenceTicks by simp]
    exact List.take_left _ _
  unfold stripFencing
  rw [hcont]
  simp only [if_pos]
  rw [hfind0]
  simp only [Int.toNat_zero, Nat.zero_add]
  rw [hfrom, hslice]
  rw [List.cons_append]
  rw [pyStrip_cons_space '\n' (body ++ ['\n']) (by decide)]
  exact pyStrip_append_space body '\n' (by decide)
/-- **C8 (counterexample).**  An answer naming the unrecognized intent
`"banana"` with confidence 0.9 is not mapped to confidence 0.3: the
`Intent(...)` `ValueError` handler substitutes `unknown` but keeps the
answer's own parsed confidence, so the result is `(unknown, 0.9)`. -/
theorem c8_counterexample :
    llm_classify (fun _ => some ⟨"banana", qpc 90, []⟩) (some (tl "x"))
      = (Intent.UNKNOWN, qpc 90, []) ∧ ¬ ((qpc 90 : ℚ) = qpc 30) := by
  refine ⟨by decide, by decide⟩

/-- **C8 (amended).**  `_llm_classify` never propagates a fatal error:
a raising API call yields `(unknown, 0.3, {})`; the collaborator's
answer is stripped and de-fenced before structured parsing (a fenced
body is processed exactly as its stripped contents); a parse failure
yields `(unknown, 0.3, {})`; and an answer naming an unrecognized
intent yields intent `unknown` carrying the answer's own parsed
confidence and entities (not 0.3). -/
theorem c8_fail_soft (parse : List Char → Option LlmAnswer) (raw body : List Char)
    (hb : ∀ c ∈ body, c ≠ backtick) :
    llm_classify parse none = llmFailResult ∧
    (parse (stripFencing (pyStrip raw)) = none →
       llm_classify parse (some raw) = llmFailResult) ∧
    (∀ a, parse (stripFencing (pyStrip raw)) = some a →
       intentOfString a.intentStr = none →
       llm_classify parse (some raw) = (Intent.UNKNOWN, a.confidence, a.entities)) ∧
    llm_classify parse (some (fencedAnswer body)) =
      (match parse (pyStrip body) with
       | none => llmFailResult
       | some a =>
           ((intentOfString a.intentStr).getD Intent.UNKNOWN, a.confidence, a.entities)) := by
  refine ⟨rfl, ?_, ?_, ?_⟩
  · intro h
    unfold llm_classify
    dsimp only
    rw [h]
  · intro a ha hi
    unfold llm_classify
    dsimp only
    rw [ha]
    dsimp only
    rw [hi]
    rfl
  · unfold llm_classify
    dsimp only
    rw [pyStrip_fencedAnswer, stripFencing_fenced body hb]

/-- Witness for `c8_fail_soft`: an unparseable collaborator answer and
a fenced unparseable answer both fail soft to `(unknown, 0.3, {})`. -/
theorem c8_fail_soft_witness :
    llm_classify (fun _ => none) none = llmFailResult ∧
    llm_classify (fun _ => none) (some (tl "oops")) = llmFailResult ∧
    llm_classify (fun _ => none) (some (fencedAnswer (tl "notjson"))) = llmFailResult :=
  ⟨(c8_fail_soft (fun _ => none) (tl "oops") (tl "notjson") (by decide)).1,
   (c8_fail_soft (fun _ => none) (tl "oops") (tl "notjson") (by decide)).2.1 rfl,
   by
     rw [(c8_fail_soft (fun _ => none) (tl "oops") (tl "notjson") (by decide)).2.2.2]⟩

/-- A fold preserves any predicate its step preserves. -/
theorem foldl_preserve {α β : Type} (P : β → Prop) (f : β → α → β) (l : List α)
    (h : ∀ b a, a ∈ l → P b → P (f b a)) (b0 : β) (h0 : P b0) : P (l.foldl f b0) := by
  induction l generalizing b0 with
  | nil => exact h0
  | cons a l ih =>
      exact ih (fun b x hx hb => h b x (List.mem_cons_of_mem a hx) hb)
        (f b0 a) (h b0 a (List.mem_cons_self a l) h0)

/-- Percent confidences are nonnegative. -/
theorem qpc_nonneg (n : Nat) : 0 ≤ qpc n := by
  unfold qpc
  rw [Rat.mkRat_eq_div]
  apply div_nonneg
  · exact_mod_cast Int.ofNat_nonneg n
  · norm_num

/-- A capped additive boost keeps a confidence inside `[0, 1]`. -/
theorem step_min (x q : ℚ) (hx : 0 ≤ x ∧ x ≤ 1) (hq : 0 ≤ q) :
    0 ≤ min 1 (x + q) ∧ min 1 (x + q) ≤ 1 :=
  ⟨le_min (by norm_num) (add_nonneg hx.1 hq), min_le_left _ _⟩

/-- A conditional capped boost keeps a confidence inside `[0, 1]`. -/
theorem step_ite (c : Prop) [Decidable c] (x q : ℚ) (hx : 0 ≤ x ∧ x ≤ 1)
    (hq : 0 ≤ q) :
    0 ≤ (if c then min 1 (x + q) else x) ∧ (if c then min 1 (x + q) else x) ≤ 1 := by
  split_ifs with h
  · exact step_min x q hx hq
  · exact hx

/-- Context boosting maps `[0, 1]` confidences into `[0, 1]`. -/
theorem boost_bounds (intent : Intent) (base : ℚ) (context : Option Ctx)
    (entities : Entities) (hb : 0 ≤ base ∧ base ≤ 1) :
    0 ≤ apply_context_boost intent base context entities ∧
    apply_context_boost intent base context entities ≤ 1 := by
  unfold apply_context_boost
  cases context with
  | none => exact hb
  | some ctx =>
      dsimp only
      exact step_ite _ _ _
        (step_ite _ _ _
          (step_ite _ _ _
            (step_ite _ _ _ hb (qpc_nonneg 10))
            (qpc_nonneg 15))
          (qpc_nonneg 15))
        (qpc_nonneg 5)

/-- Every base confidence of the pattern table lies in `[0, 1]`. -/
theorem table_bounds :
    ∀ ip ∈ intentPatterns, ∀ pr ∈ ip.2, 0 ≤ pr.2 ∧ pr.2 ≤ 1 := by decide

/-- The rule-based classifier's confidence always lies in `[0, 1]`. -/
theorem rule_based_bounds (context : Option Ctx) (text : List Char) :
    0 ≤ (rule_based_classify context text).2.1 ∧
    (rule_based_classify context text).2.1 ≤ 1 := by
  unfold rule_based_classify
  refine foldl_preserve
    (fun (best : Intent × ℚ × Entities) => 0 ≤ best.2.1 ∧ best.2.1 ≤ 1) _ _ ?_ _
    ⟨le_refl 0, by norm_num⟩
  intro b ip hip hb
  refine foldl_preserve
    (fun (best : Intent × ℚ × Entities) => 0 ≤ best.2.1 ∧ best.2.1 ≤ 1) _ _ ?_ _ hb
  intro b2 pr hpr hb2
  by_cases ht : reTest pr.1 text = true
  · simp only [ht, if_pos]
    by_cases hsel : b2.2.1 < apply_context_boost ip.1 pr.2 context
        (extract_entities ip.1 text)
    · rw [if_pos hsel]
      exact boost_bounds ip.1 pr.2 context (extract_entities ip.1 text)
        (table_bounds ip hip pr hpr)
    · rw [if_neg hsel]
      exact hb2
  · simp only [ht, Bool.false_eq_true, if_false]
    exact hb2

/-- **C9 (amended).**  The confidence returned by `classify` lies in
`[0, 1]` on every rule-based path (empty input, no match, boosted
match), and on the fallback path as well provided the collaborator's
parsed confidence itself lies in `[0, 1]` — the code never validates
or clamps the fallback confidence, so the hypothesis on the fallback
result is necessary (see the counterexample). -/
theorem c9_confidence_bounds (cfg : ClassifierConfig)
    (parse : List Char → Option LlmAnswer) (apiResponse : Option (List Char))
    (user_input : List Char) (context : Option Ctx)
    (h0 : 0 ≤ (llm_classify parse apiResponse).2.1)
    (h1 : (llm_classify parse apiResponse).2.1 ≤ 1) :
    0 ≤ (classify cfg parse apiResponse user_input context).2.1 ∧
    (classify cfg parse apiResponse user_input context).2.1 ≤ 1 := by
  unfold classify
  by_cases he : user_input = [] ∨ pyStrip user_input = []
  · rw [if_pos he]
    exact ⟨le_refl 0, by norm_num⟩
  · rw [if_neg he]
    dsimp only
    have hrb := rule_based_bounds context (pyStrip (pyLower user_input))
    by_cases hc : (rule_based_classify context (pyStrip (pyLower user_input))).2.1
        < cfg.confidence_threshold ∧ cfg.use_llm_fallback = true
    · rw [if_pos hc]
      by_cases hsel : (rule_based_classify context (pyStrip (pyLower user_input))).2.1
          < (llm_classify parse apiResponse).2.1
      · rw [if_pos hsel]
        exact ⟨h0, h1⟩
      · rw [if_neg hsel]
        exact hrb
    · rw [if_neg hc]
      exact hrb

/-- **C9 (counterexample).**  With a collaborator answer carrying
confidence 2, the fallback path returns that confidence unvalidated:
`classify` yields a `ClassificationResult` whose confidence 2 is
outside `[0, 1]`, refuting the unconditional claim. -/
theorem c9_counterexample :
    classify ⟨qpc 70, true⟩ (fun _ => some ⟨"question", mkRat 2 1, []⟩)
        (some (tl "x")) (tl "z") none = (Intent.QUESTION, mkRat 2 1, []) ∧
    ¬ ((classify ⟨qpc 70, true⟩ (fun _ => some ⟨"question", mkRat 2 1, []⟩)
        (some (tl "x")) (tl "z") none).2.1 ≤ 1) := by
  refine ⟨by decide, by decide⟩

/-- Witness for `c9_confidence_bounds`: an unparseable collaborator
answer (fallback confidence 0.3 ∈ [0, 1]) and the no-match utterance
`"z"`. -/
theorem c9_confidence_bounds_witness :
    (0 ≤ (llm_classify (fun _ => none) none).2.1 ∧
     (llm_classify (fun _ => none) none).2.1 ≤ 1) ∧
    (0 ≤ (classify ⟨qpc 70, true⟩ (fun _ => none) none (tl "z") none).2.1 ∧
     (classify ⟨qpc 70, true⟩ (fun _ => none) none (tl "z") none).2.1 ≤ 1) :=
  ⟨⟨by decide, by decide⟩,
   c9_confidence_bounds ⟨qpc 70, true⟩ (fun _ => none) none (tl "z") none
     (by decide) (by decide)⟩

/-- **C10.**  For an existing session and a target step within
`[1, total_steps]`, `navigate_to_step` reports success and rewrites the
record with the step index set to the target, the narration section
overwritten to `"steps"` regardless of its previous value, and the
last-activity timestamp refreshed — every other field of the record,
and every other entry of the store, is unchanged (the result is the
old record with exactly those three fields updated, written back at the
session's key). -/
theorem c10_navigate_frame (st : SMState) (now : ℚ) (sid : String) (n : Int)
    (d : SessionData)
    (hact : st.redis_active = true)
    (hm : storeGet st.store (skey sid) = some d)
    (h1 : 1 ≤ n) (h2 : n ≤ d.total_steps) :
    navigate_to_step st now sid n =
      (true,
       { st with
           store := storeSet st.store (skey sid)
             { d with step_index := n
                      current_section := "steps"
                      last_activity := now }
           redis_calls := st.redis_calls + 1 + 1 + 1 }) := by
  unfold navigate_to_step
  rw [get_session_hit hact now hm]
  dsimp only
  rw [if_pos ⟨h1, h2⟩]
  unfold update_session_raw
  simp only [hact, if_pos]
  rw [storeSet_storeSet]

/-- Witness for `c10_navigate_frame`: jumping to step 2 of a fresh
3-step session. -/
theorem c10_navigate_frame_witness :
    ((create_session smInit 0 "s" "r" "t" 3 none).2.redis_active = true ∧
     storeGet (create_session smInit 0 "s" "r" "t" 3 none).2.store (skey "s")
       = some (create_session smInit 0 "s" "r" "t" 3 none).1 ∧
     (1 : Int) ≤ 2 ∧
     (2 : Int) ≤ (create_session smInit 0 "s" "r" "t" 3 none).1.total_steps) ∧
    navigate_to_step (create_session smInit 0 "s" "r" "t" 3 none).2 1 "s" 2 =
      (true,
       { (create_session smInit 0 "s" "r" "t" 3 none).2 with
           store := storeSet (create_session smInit 0 "s" "r" "t" 3 none).2.store
             (skey "s")
             { (create_session smInit 0 "s" "r" "t" 3 none).1 with
                 step_index := 2
                 current_section := "steps"
                 last_activity := 1 }
           redis_calls :=
             (create_session smInit 0 "s" "r" "t" 3 none).2.redis_calls + 1 + 1 + 1 }) :=
  ⟨⟨rfl, by decide, by decide, by decide⟩,
   c10_navigate_frame (create_session smInit 0 "s" "r" "t" 3 none).2 1 "s" 2
     (create_session smInit 0 "s" "r" "t" 3 none).1 rfl (by decide) (by decide)
     (by decide)⟩
